import Mathlib

/-!
# gincache: a shallow embedding of the caching middleware and its memory adapter

The development follows the two source files.

* `adapters/memory.go`: the package-level `store` (a `sync.Map`) and the three
  methods of `MemoryAdapter`.  Time is explicit: an instant is an integer number
  of nanoseconds, and `time.Now()` is the `now` component of the state.
* `gincache.go`: `Options`, `bodyWriter`, `isErrorResponse`, `bodyWriter.Write`
  and `NewMiddleware` with the handler closure it returns.

The gin framework is an external collaborator.  It is modelled by the operations
the code uses: the handler chain (`Next`, `Abort`, `IsAborted`, an index into the
chain), the request-scoped `Keys` and `Errors`, and gin's `responseWriter`: a
status code that `WriteHeader` changes only for a positive code and only before
the header is written, headers under canonical names (`net/textproto`), and the
body bytes.  The first `Write` sends the status code to the underlying writer,
which panics on a code outside 100..999; a panic ends the request where it is.

Go strings and byte slices are both modelled by `String`; `[]byte(s)` and
`buffer.String()` are the identity.

The component `calls` of the state is ghost instrumentation: it records, in
order, every call made on the storage adapter, every call of the key function and
every entry into the downstream handler.  It plays the role of the mock adapter
of the test suite.
-/

namespace Gincache

/-- Go `error` values; `none` is the nil error. -/
abbrev Error := String

/-! ## Package `time`, as far as `memory.go` uses it -/

/-- The constant `time.Second`, a `time.Duration` counted in nanoseconds. -/
def Second : Int := 1000000000

/-- Largest `time.Duration` (an int64). -/
def maxDuration : Int := 2 ^ 63 - 1

/-- Smallest `time.Duration` (an int64). -/
def minDuration : Int := -(2 ^ 63)

/-- Two-complement wrap-around of int64 arithmetic. -/
def wrapInt64 (x : Int) : Int := (x + 2 ^ 63) % 2 ^ 64 - 2 ^ 63

/-- The expression `time.Second * time.Duration(TTL)` of `MemoryAdapter.Set`:
an int64 multiplication, which wraps around on overflow.  `TTL` is a Go `int`,
64 bits wide on the usual platforms, so the conversion to `Duration` keeps it. -/
def ttlDuration (TTL : Int) : Int := wrapInt64 (Second * TTL)

/-- The method `Time.Add`. -/
def timeAdd (t d : Int) : Int := t + d

/-- The method `Time.Sub`: the difference of two instants as a `Duration`,
saturating at the largest and smallest duration. -/
def timeSub (t u : Int) : Int :=
  if t - u > maxDuration then maxDuration
  else if t - u < minDuration then minDuration
  else t - u

/-- The function `time.Until(t)`, which is `t.Sub(time.Now())`. -/
def timeUntil (now t : Int) : Int := timeSub t now

/-! ## Package `adapters` (memory.go) -/

/-- The struct `Value`. -/
structure Value where
  V : String
  ExpiresAt : Int
deriving DecidableEq, Repr

/-- The package-level `store sync.Map`: an association list in which the first
binding of a key is the current one. -/
abbrev SyncMap := List (String × Value)

/-- The method `sync.Map.Load`. -/
def SyncMap.Load (key : String) (m : SyncMap) : Option Value := List.lookup key m

/-- The method `sync.Map.Store`. -/
def SyncMap.Store (key : String) (v : Value) (m : SyncMap) : SyncMap := (key, v) :: m

/-- The method `MemoryAdapter.Get`.  The test `until.Seconds() <= 0` compares a
float64 computed as `float64(d / Second) + float64(d % Second) / 1e9`; both
summands have the sign of `d`, so the test holds exactly when `d <= 0`. -/
def MemoryAdapter.Get (key : String) (store : SyncMap) (now : Int) :
    Bool × String × Option Error :=
  match SyncMap.Load key store with
  | some v =>
    let exp := v.ExpiresAt
    let untl := timeUntil now exp
    if untl ≤ 0 then (false, "", none)
    else (true, v.V, none)
  | none => (false, "", none)

/-- The method `MemoryAdapter.Set`; returns the nil error and the new store. -/
def MemoryAdapter.Set (key content : String) (TTL : Int) (store : SyncMap) (now : Int) :
    Option Error × SyncMap :=
  let expiresAt := timeAdd now (ttlDuration TTL)
  (none, SyncMap.Store key ⟨content, expiresAt⟩ store)

/-- The method `MemoryAdapter.Clear`: its body is `return nil`. -/
def MemoryAdapter.Clear (_key : String) (store : SyncMap) : Option Error × SyncMap :=
  (none, store)

/-! ## The gin collaborator -/

/-- The function `validHeaderFieldByte` of `net/textproto`: the bytes allowed in
a header name are the ASCII letters and digits and the fifteen punctuation marks
of an HTTP token, listed here by their codes. -/
def validHeaderFieldByte (c : Char) : Bool :=
  c.isAlphanum ||
    [33, 35, 36, 37, 38, 39, 42, 43, 45, 46, 94, 95, 96, 124, 126].contains c.toNat

/-- The loop of `canonicalMIMEHeaderKey`: the first letter and every letter after
a dash in upper case, the other letters in lower case. -/
def canonicalLetters : Bool → List Char → List Char
  | _, [] => []
  | upper, c :: cs =>
    let d :=
      if upper && c.isLower then c.toUpper
      else if !upper && c.isUpper then c.toLower
      else c
    d :: canonicalLetters (d == '-') cs

/-- The function `textproto.CanonicalMIMEHeaderKey`, which `http.Header` applies
to the name in `Add`, `Set`, `Get`, `Del` and `Values`: a name with a byte that is
not allowed in a header name is kept as it is, any other name is put in canonical
form. -/
def CanonicalMIMEHeaderKey (s : String) : String :=
  if s.data.all validHeaderFieldByte then String.mk (canonicalLetters true s.data) else s

/-- The type `http.Header`: a multimap, kept as the list of its (key, value)
pairs in insertion order, the keys in canonical form. -/
abbrev Header := List (String × String)

/-- The method `Header.Add`. -/
def Header.Add (k v : String) (h : Header) : Header := h ++ [(CanonicalMIMEHeaderKey k, v)]

/-- The method `Header.Del`. -/
def Header.Del (k : String) (h : Header) : Header :=
  h.filter (fun p => p.1 != CanonicalMIMEHeaderKey k)

/-- The method `Header.Set`. -/
def Header.Set (k v : String) (h : Header) : Header :=
  h.filter (fun p => p.1 != CanonicalMIMEHeaderKey k) ++ [(CanonicalMIMEHeaderKey k, v)]

/-- The method `Header.Values`. -/
def Header.Values (k : String) (h : Header) : List String :=
  (h.filter (fun p => p.1 == CanonicalMIMEHeaderKey k)).map Prod.snd

/-- The method `Header.Get`: the first value of the key, or the empty string. -/
def Header.Get (k : String) (h : Header) : String :=
  match List.lookup (CanonicalMIMEHeaderKey k) h with
  | some v => v
  | none => ""

/-- The response sink: gin's `responseWriter` over the `http.ResponseWriter` of
the request.  `status` is the status code gin holds, `size` is -1 (`noWritten`)
until the header is written, `body` is what the underlying writer has received.
The underlying writer is the one of the test suite, `httptest.ResponseRecorder`:
like the one of the server, it panics in `WriteHeader` on a status code outside
100..999, and it records every byte written to it.  `panicked` records the
panic; once it is set the handlers of the request have unwound and nothing more
of them runs. -/
structure ResponseWriter where
  status : Int
  header : Header
  body : String
  size : Int
  panicked : Bool
deriving DecidableEq, Repr

/-- The method `responseWriter.Written`. -/
def ResponseWriter.Written (w : ResponseWriter) : Bool := decide (w.size ≠ -1)

/-- The method `responseWriter.WriteHeader` (gin 1.9 and later): a code that is
not positive is ignored, and so is any code once the header is written. -/
def ResponseWriter.WriteHeader (code : Int) (w : ResponseWriter) : ResponseWriter :=
  if code > 0 ∧ w.status ≠ code then
    if w.Written = true then w
    else { w with status := code }
  else w

/-- The method `responseWriter.WriteHeaderNow`: on the first call the size
becomes 0 and the status code goes to the underlying `WriteHeader`, which panics
when `checkWriteHeaderCode` refuses it. -/
def ResponseWriter.WriteHeaderNow (w : ResponseWriter) : ResponseWriter :=
  if w.Written = true then w
  else if w.status < 100 ∨ w.status > 999 then { w with size := 0, panicked := true }
  else { w with size := 0 }

/-- The method `responseWriter.Write`: the header is written first, then the
bytes are appended to the body and counted; the number of bytes and a nil error
are returned.  After a panic nothing is written and no value is returned: the
pair given here is never looked at. -/
def ResponseWriter.Write (b : String) (w : ResponseWriter) :
    (Int × Option Error) × ResponseWriter :=
  let w := ResponseWriter.WriteHeaderNow w
  if w.panicked = true then ((0, none), w)
  else ((b.utf8ByteSize, none), { w with body := w.body ++ b, size := w.size + b.utf8ByteSize })

/-- Values stored under `c.Keys` by this package. -/
inductive KeyVal where
  | CacheOptions
  | CacheKey (key : String)
  | CacheSetError (err : Error)
deriving DecidableEq, Repr

/-- The struct `bodyWriter` of gincache.go.  Its fields `ResponseWriter`,
`CacheOptions` and `context` are pointers to the real sink, to the options of the
instance and to the context of the request, all of which live in the state. -/
structure bodyWriter where
  body : String
  CacheKey : String
deriving DecidableEq, Repr

/-- The type `gin.Context`.  `Writer` is the real sink; `capture` is `some w`
once `c.Writer` has been replaced by the `bodyWriter` `w` that wraps it. -/
structure Context where
  Request : String
  index : Int
  Keys : List (String × KeyVal)
  Errors : List Error
  Writer : ResponseWriter
  capture : Option bodyWriter
deriving DecidableEq, Repr

/-- The constant `abortIndex` of gin. -/
def abortIndex : Int := 63

/-- The method `Context.Abort`. -/
def Context.Abort (c : Context) : Context := { c with index := abortIndex }

/-- The method `Context.IsAborted`. -/
def Context.IsAborted (c : Context) : Bool := decide (abortIndex ≤ c.index)

/-- The method `Context.Set`. -/
def Context.Set (key : String) (v : KeyVal) (c : Context) : Context :=
  { c with Keys := (key, v) :: c.Keys }

/-- The method `Context.Get`. -/
def Context.Get (key : String) (c : Context) : Option KeyVal := List.lookup key c.Keys

/-- The method `Context.Error`. -/
def Context.Error (e : Error) (c : Context) : Context :=
  { c with Errors := c.Errors ++ [e] }

/-- The context gin hands to the first handler of a chain: `reset()` puts the
index at -1, empties `Keys` and `Errors`, and the sink starts with status 200, no
header, no body and nothing written. -/
def Context.reset (req : String) : Context :=
  { Request := req, index := -1, Keys := [], Errors := [],
    Writer := { status := 200, header := [], body := "", size := -1, panicked := false },
    capture := none }

/-! ## Package `gincache` (gincache.go) -/

/-- The constant `DefaultCachedResponseStatusCode`. -/
def DefaultCachedResponseStatusCode : Int := 200

/-- The constant `DefaultCachedResponseContentType`. -/
def DefaultCachedResponseContentType : String := "application/json"

/-- A user supplied implementation of the interface `StorageAdapter`, with its
own state of type `σ`. -/
structure CustomAdapter (σ : Type) where
  Get : String → σ → (Bool × String × Option Error) × σ
  Set : String → String → Int → σ → Option Error × σ
  Clear : String → σ → Option Error × σ

/-- Values of the interface type `StorageAdapter`. -/
inductive StorageAdapter (σ : Type) where
  | memory
  | custom (a : CustomAdapter σ)

/-- The struct `Options`.  `Headers` is a Go map; the list gives its entries in
the order in which `range` visits them. -/
structure Options (σ : Type) where
  TTL : Int
  Key : String
  KeyFunc : Option (Context → String × Option Error)
  Adapter : Option (StorageAdapter σ)
  DisableSet : Bool
  ResponseStatusCode : Int
  ResponseContentType : String
  KeyAsETag : Bool
  Headers : List (String × String)

/-- Ghost record of a call on a collaborator. -/
inductive Call where
  | KeyFunc
  | Get (key : String)
  | Set (key content : String) (TTL : Int)
  | Clear (key : String)
  | Handler
deriving DecidableEq, Repr

/-- The state of the process as seen by one middleware instance. -/
structure State (σ : Type) where
  now : Int
  store : SyncMap
  ext : σ
  DefaultAdapter : Option (StorageAdapter σ)
  options : Options σ
  key : String
  c : Context
  calls : List Call

/-- The call `options.Adapter.Get(key)`.  A nil adapter cannot occur once
`NewMiddleware` has run; that branch reports a miss. -/
def adapterGet {σ : Type} (key : String) (s : State σ) :
    (Bool × String × Option Error) × State σ :=
  let s := { s with calls := s.calls ++ [Call.Get key] }
  match s.options.Adapter with
  | some StorageAdapter.memory => (MemoryAdapter.Get key s.store s.now, s)
  | some (StorageAdapter.custom a) =>
    ((a.Get key s.ext).1, { s with ext := (a.Get key s.ext).2 })
  | none => ((false, "", none), s)

/-- The call `options.Adapter.Set(key, content, TTL)`. -/
def adapterSet {σ : Type} (key content : String) (TTL : Int) (s : State σ) :
    Option Error × State σ :=
  let s := { s with calls := s.calls ++ [Call.Set key content TTL] }
  match s.options.Adapter with
  | some StorageAdapter.memory =>
    ((MemoryAdapter.Set key content TTL s.store s.now).1,
      { s with store := (MemoryAdapter.Set key content TTL s.store s.now).2 })
  | some (StorageAdapter.custom a) =>
    ((a.Set key content TTL s.ext).1, { s with ext := (a.Set key content TTL s.ext).2 })
  | none => (none, s)

/-- The call `options.Adapter.Clear(key)`. -/
def adapterClear {σ : Type} (key : String) (s : State σ) : Option Error × State σ :=
  let s := { s with calls := s.calls ++ [Call.Clear key] }
  match s.options.Adapter with
  | some StorageAdapter.memory =>
    ((MemoryAdapter.Clear key s.store).1, { s with store := (MemoryAdapter.Clear key s.store).2 })
  | some (StorageAdapter.custom a) =>
    ((a.Clear key s.ext).1, { s with ext := (a.Clear key s.ext).2 })
  | none => (none, s)

/-- The function `isErrorResponse`. -/
def isErrorResponse {σ : Type} (s : State σ) : Bool :=
  let statusCode := s.c.Writer.status
  decide (statusCode > 399)

/-- The call `w.ResponseWriter.Write(b)` on the real sink of the request. -/
def realWrite {σ : Type} (b : String) (s : State σ) : (Int × Option Error) × State σ :=
  ((ResponseWriter.Write b s.c.Writer).1,
    { s with c := { s.c with Writer := (ResponseWriter.Write b s.c.Writer).2 } })

/-- Lines 66-68 of `bodyWriter.Write`: when the options carry no content type,
the `Content-Type` header of the response is written into the options. -/
def bodyWriter.learnContentType {σ : Type} (s : State σ) : State σ :=
  if s.options.ResponseContentType = "" then
    { s with options :=
        { s.options with ResponseContentType := Header.Get "Content-Type" s.c.Writer.header } }
  else s

/-- Lines 70-74 of `bodyWriter.Write`: the call of `Set` and the recording of its
error in the context. -/
def bodyWriter.save {σ : Type} (w : bodyWriter) (s : State σ) : State σ :=
  match (adapterSet w.CacheKey w.body s.options.TTL s).1 with
  | some err =>
    let s := (adapterSet w.CacheKey w.body s.options.TTL s).2
    { s with c := Context.Error err (Context.Set "CacheSetError" (KeyVal.CacheSetError err) s.c) }
  | none => (adapterSet w.CacheKey w.body s.options.TTL s).2

/-- The part of `bodyWriter.Write` guarded by the eligibility test (lines 65-74). -/
def bodyWriter.persist {σ : Type} (w : bodyWriter) (s : State σ) : State σ :=
  bodyWriter.save w (bodyWriter.learnContentType s)

/-- The method `bodyWriter.Write`.  The buffer `w.body` is shared with the
`bodyWriter` installed in the context, so the appended buffer is stored back. -/
def bodyWriter.Write {σ : Type} (w : bodyWriter) (b : String) (s : State σ) :
    (Int × Option Error) × State σ :=
  let w : bodyWriter := { w with body := w.body ++ b }
  let s := { s with c := { s.c with capture := some w } }
  let s :=
    if (!isErrorResponse s && !s.options.DisableSet && !s.c.IsAborted) = true then
      bodyWriter.persist w s
    else s
  realWrite b s

/-- The call `c.Writer.Write(b)`: dispatch on the writer installed in the context. -/
def writerWrite {σ : Type} (b : String) (s : State σ) : (Int × Option Error) × State σ :=
  match s.c.capture with
  | some w => bodyWriter.Write w b s
  | none => realWrite b s

/-- One action of a downstream handler on its context.  A handler is modelled by
the sequence of actions it performs; body bytes are written with
`c.Writer.Write`, the method that `bodyWriter` overrides. -/
inductive Op where
  | Status (code : Int)
  | Header (key value : String)
  | Write (b : String)
  | Abort
  | Sleep (d : Nat)
deriving DecidableEq, Repr

/-- Effect of one action when it is performed.  `Status` is `c.Status(code)`,
which is `c.Writer.WriteHeader(code)`; `Header` is `c.Header(key, value)`, which
deletes the header when the value is empty and sets it otherwise; `Write` is
`c.Writer.Write(b)`; `Abort` is `c.Abort()`; `Sleep d` lets `d` nanoseconds
pass. -/
def Op.exec {σ : Type} (op : Op) (s : State σ) : State σ :=
  match op with
  | Op.Status code =>
    { s with c := { s.c with Writer := ResponseWriter.WriteHeader code s.c.Writer } }
  | Op.Header k v =>
    { s with c := { s.c with Writer := { s.c.Writer with
        header := if v = "" then Header.Del k s.c.Writer.header
                  else Header.Set k v s.c.Writer.header } } }
  | Op.Write b => (writerWrite b s).2
  | Op.Abort => { s with c := Context.Abort s.c }
  | Op.Sleep d => { s with now := s.now + d }

/-- Effect of one action of a handler: it is performed unless a panic has
unwound the request. -/
def Op.run {σ : Type} (op : Op) (s : State σ) : State σ :=
  if s.c.Writer.panicked = true then s else Op.exec op s

/-- Run a sequence of actions. -/
def runOps {σ : Type} (ops : List Op) (s : State σ) : State σ :=
  ops.foldl (fun s op => Op.run op s) s

/-- A member of a handler chain; its first argument is what `c.Next()` does when
the handler calls it. -/
abbrev HandlerFunc (σ : Type) := (State σ → State σ) → State σ → State σ

/-- The downstream handler performing the actions `ops`. -/
def downstream {σ : Type} (ops : List Op) : HandlerFunc σ :=
  fun _ s => runOps ops { s with calls := s.calls ++ [Call.Handler] }

/-- The statement `c.index++`. -/
def bump {σ : Type} (s : State σ) : State σ :=
  { s with c := { s.c with index := s.c.index + 1 } }

/-- The element `c.handlers[c.index]` when `c.index < len(c.handlers)`. -/
def handlerAt {σ : Type} (handlers : List (HandlerFunc σ)) (i : Int) : Option (HandlerFunc σ) :=
  if 0 ≤ i then handlers.get? i.toNat else none

/-- The loop of `Context.Next`.  `run` is the meaning of a nested `c.Next()`;
the natural number bounds the number of turns.  When a handler has panicked the
loop is left at once, without `c.index++`. -/
def nextLoop {σ : Type} (run : State σ → State σ) (handlers : List (HandlerFunc σ)) :
    Nat → State σ → State σ
  | 0, s => s
  | n + 1, s =>
    match handlerAt handlers s.c.index with
    | some h =>
      if (h run s).c.Writer.panicked = true then h run s
      else nextLoop run handlers n (bump (h run s))
    | none => s

/-- The method `Context.Next` on the chain `handlers`; `depth` bounds the nesting
of `Next` calls.  A turn of the loop raises the index by one at least, so
`handlers.length` turns are enough. -/
def Next {σ : Type} : Nat → List (HandlerFunc σ) → State σ → State σ
  | 0, _, s => s
  | depth + 1, handlers, s =>
    nextLoop (Next depth handlers) handlers handlers.length (bump s)

/-- Lines 109-112 of the closure returned by `NewMiddleware`: the key is stored
in the context and looked up in the adapter.  The result of `Get` and the state
after the call are returned. -/
def NewMiddleware.get {σ : Type} (s : State σ) : (Bool × String × Option Error) × State σ :=
  adapterGet s.key { s with c := Context.Set "CacheKey" (KeyVal.CacheKey s.key) s.c }

/-- Lines 119-138 of the closure: the status code and the headers of the
response sent from the cache. -/
def NewMiddleware.hitHeader {σ : Type} (key : String) (s : State σ) : State σ :=
  let statusCode :=
    if s.options.ResponseStatusCode = 0 then DefaultCachedResponseStatusCode
    else s.options.ResponseStatusCode
  let contentType :=
    if s.options.ResponseContentType = "" then DefaultCachedResponseContentType
    else s.options.ResponseContentType
  let headers := s.c.Writer.header
  let headers := s.options.Headers.foldl (fun h kv => Header.Add kv.1 kv.2 h) headers
  let headers := if s.options.KeyAsETag = true then Header.Add "ETag" key headers else headers
  let headers := Header.Add "Content-Type" contentType headers
  let s := { s with c := { s.c with Writer := { s.c.Writer with header := headers } } }
  { s with c := { s.c with Writer := ResponseWriter.WriteHeader statusCode s.c.Writer } }

/-- Lines 117-141 of the closure: the response sent from the cache.  When the
`Write` of line 139 panics, `c.Abort()` is not reached. -/
def NewMiddleware.hit {σ : Type} (key result : String) (s : State σ) : State σ :=
  let s := (writerWrite result (NewMiddleware.hitHeader key s)).2
  if s.c.Writer.panicked = true then s else { s with c := Context.Abort s.c }

/-- Lines 144-153 of the closure: the writer of the context is replaced by a
`bodyWriter` with an empty buffer, then `c.Next()` is called. -/
def NewMiddleware.miss {σ : Type} (key : String) (next : State σ → State σ) (s : State σ) :
    State σ :=
  let bWriter : bodyWriter := { body := "", CacheKey := key }
  let s := { s with c := { s.c with capture := some bWriter } }
  next s

/-- Lines 109-154 of the closure returned by `NewMiddleware`: lookup, then the
hit path when `exists && err == nil`, the miss path otherwise. -/
def NewMiddleware.lookup {σ : Type} (next : State σ → State σ) (s : State σ) : State σ :=
  let r := NewMiddleware.get s
  if (r.1.1 && r.1.2.2.isNone) = true then NewMiddleware.hit s.key r.1.2.1 r.2
  else NewMiddleware.miss s.key next r.2

/-- Lines 98-154 of the closure: the key is resolved, and the request is aborted
when `KeyFunc` fails.  The variable `key` captured by the closure is the
component `key` of the state. -/
def NewMiddleware.resolve {σ : Type} (next : State σ → State σ) (s : State σ) : State σ :=
  match s.options.KeyFunc with
  | some f =>
    match (f s.c).2 with
    | some _ =>
      { s with calls := s.calls ++ [Call.KeyFunc], key := (f s.c).1, c := Context.Abort s.c }
    | none =>
      NewMiddleware.lookup next { s with calls := s.calls ++ [Call.KeyFunc], key := (f s.c).1 }
  | none => NewMiddleware.lookup next s

/-- The closure returned by `NewMiddleware` (lines 90-154). -/
def NewMiddleware.handler {σ : Type} : HandlerFunc σ := fun next s =>
  if s.options.TTL = 0 then
    next { s with c := Context.Set "CacheOptions" KeyVal.CacheOptions s.c }
  else
    NewMiddleware.resolve next { s with c := Context.Set "CacheOptions" KeyVal.CacheOptions s.c }

/-- The body of `NewMiddleware` before the closure is returned (lines 83-89): the
default adapter is resolved and the static key is captured. -/
def NewMiddleware {σ : Type} (options : Options σ) (s : State σ) : State σ :=
  match options.Adapter with
  | none =>
    let s :=
      match s.DefaultAdapter with
      | none => { s with DefaultAdapter := some StorageAdapter.memory }
      | some _ => s
    { s with options := { options with Adapter := s.DefaultAdapter }, key := options.Key }
  | some _ => { s with options := options, key := options.Key }

/-- The route `r.GET(path, NewMiddleware(options), handler)` of an engine with no
other middleware, serving one request: gin resets the context and calls `Next`
on the chain of the two handlers. -/
def ServeHTTP {σ : Type} (ops : List Op) (req : String) (s : State σ) : State σ :=
  Next 2 [NewMiddleware.handler, downstream ops] { s with c := Context.reset req }

/-- Serve a sequence of requests, each given by its request data and the actions
of the downstream handler. -/
def serveAll {σ : Type} (reqs : List (String × List Op)) (s : State σ) : State σ :=
  reqs.foldl (fun s r => ServeHTTP r.2 r.1 s) s


/-! ## Auxiliary notions used to state the properties -/

/-- The bytes a sequence of actions writes, concatenated in order. -/
def written : List Op → String
  | [] => ""
  | Op.Write b :: ops => b ++ written ops
  | _ :: ops => written ops

/-- Whether an action is a body write. -/
def Op.isWrite : Op → Bool
  | Op.Write _ => true
  | _ => false

/-- Whether an action sets the status code. -/
def Op.isStatus : Op → Bool
  | Op.Status _ => true
  | _ => false

/-- Two values of `Options` that agree on every field except possibly
`ResponseContentType`, which may differ only when the first one is empty. -/
def Options.frame {σ : Type} (o o2 : Options σ) : Prop :=
  ∃ ct, o2 = { o with ResponseContentType := ct } ∧
    (o.ResponseContentType ≠ "" → ct = o.ResponseContentType)

/-- The statement `c.index++` that follows the call of a handler in the loop of
`Next`: it is not reached when the handler has panicked. -/
def after {σ : Type} (s : State σ) : State σ :=
  if s.c.Writer.panicked = true then s else bump s

/-- What `c.Next()` does when the middleware calls it in the chain of
`ServeHTTP`: the index moves to the downstream handler, the handler runs, and the
index moves past the end of the chain. -/
def nextDown {σ : Type} (ops : List Op) (s : State σ) : State σ :=
  after (downstream ops id (bump s))

/-- The bytes captured so far by the `bodyWriter` of the request, if one is
installed. -/
def captured {σ : Type} (s : State σ) : String :=
  match s.c.capture with
  | some w => w.body
  | none => ""

/-- Configured extra headers as `Header.Add` stores them: the names in canonical
form. -/
def canonicalHeaders (l : List (String × String)) : Header :=
  l.map (fun kv => (CanonicalMIMEHeaderKey kv.1, kv.2))

/-- The status code the sink holds after the hit path has called `WriteHeader`
on the sink of a request just reset: `ResponseStatusCode` when it is positive,
200 otherwise. -/
def hitStatus {σ : Type} (o : Options σ) : Int :=
  if 0 < o.ResponseStatusCode then o.ResponseStatusCode else 200

/-- The headers of a response sent from the cache for the key `k`: the configured
extra headers, the key as `ETag` when asked for, and the content type. -/
def hitHeaders {σ : Type} (o : Options σ) (k : String) : Header :=
  canonicalHeaders o.Headers ++ (if o.KeyAsETag = true then [("Etag", k)] else []) ++
    [("Content-Type", if o.ResponseContentType = "" then "application/json"
                      else o.ResponseContentType)]

/-- The sink after lines 119-138 of the closure: the headers of the hit appended,
then `WriteHeader` called with the configured status code or 200. -/
def hitSink {σ : Type} (o : Options σ) (k : String) (w : ResponseWriter) : ResponseWriter :=
  ResponseWriter.WriteHeader (if o.ResponseStatusCode = 0 then 200 else o.ResponseStatusCode)
    { w with header := w.header ++ hitHeaders o k }

/-- The context the closure passes to `KeyFunc` while serving the request `req`:
the reset context, at position 0 of the chain, with `CacheOptions` set. -/
def keyFuncContext (req : String) : Context :=
  Context.Set "CacheOptions" KeyVal.CacheOptions { Context.reset req with index := 0 }

/-- The resolved cache key of a request with its error: the result of `KeyFunc`
when one is configured, the captured static key with a nil error otherwise. -/
def resolveKey {σ : Type} (s : State σ) (req : String) : String × Option Error :=
  match s.options.KeyFunc with
  | some f => f (keyFuncContext req)
  | none => (s.key, none)

/-- The calls of the key function made while a request resolves its key. -/
def keyFuncCalls {σ : Type} (s : State σ) : List Call :=
  match s.options.KeyFunc with
  | some _ => [Call.KeyFunc]
  | none => []

/-- The state of a request once its key `k` has been resolved without error, at
line 109 of the closure. -/
def atLookup {σ : Type} (s : State σ) (req k : String) : State σ :=
  { s with c := keyFuncContext req, key := k, calls := s.calls ++ keyFuncCalls s }

/-- The state in which the downstream handler starts on the miss path of a
request with resolved key `k`: the lookup has been made, the `bodyWriter` with an
empty buffer is installed, and the index points at the downstream handler. -/
def missEntry {σ : Type} (s : State σ) (req k : String) : State σ :=
  { s with
    ext := (adapterGet k s).2.ext, key := k,
    calls := s.calls ++ keyFuncCalls s ++ [Call.Get k, Call.Handler],
    c := { Request := req, index := 1,
           Keys := [("CacheKey", KeyVal.CacheKey k), ("CacheOptions", KeyVal.CacheOptions)],
           Errors := [],
           Writer := { status := 200, header := [], body := "", size := -1, panicked := false },
           capture := some { body := "", CacheKey := k } } }

/-! ## Fixtures, after gincache_test.go -/

/-- The `MockAdapter` of the tests: `Get` returns the two configured values and a
nil error, `Set` returns the configured error, `Clear` returns nil. -/
def MockAdapter (expectedGetReturnBool : Bool) (expectedGetReturn : String)
    (expectedSetReturnErr : Option Error) : CustomAdapter Unit :=
  { Get := fun _ u => ((expectedGetReturnBool, expectedGetReturn, none), u),
    Set := fun _ _ _ u => (expectedSetReturnErr, u),
    Clear := fun _ u => (none, u) }

/-- Options with a TTL of 3600 seconds, the static key `K` and the memory adapter. -/
def testOptions : Options Unit :=
  { TTL := 3600, Key := "K", KeyFunc := none, Adapter := some StorageAdapter.memory,
    DisableSet := false, ResponseStatusCode := 0, ResponseContentType := "",
    KeyAsETag := false, Headers := [] }

/-- A process at instant 0 with an empty store and no default adapter. -/
def emptyState : State Unit :=
  { now := 0, store := [], ext := (), DefaultAdapter := none, options := testOptions,
    key := "", c := Context.reset "", calls := [] }

/-- An instance over the memory adapter on an empty store. -/
def memoryInstance : State Unit := NewMiddleware testOptions emptyState

/-- An instance over a mock adapter whose `Get` finds the payload `cached`. -/
def mockHitInstance : State Unit :=
  NewMiddleware
    { testOptions with Adapter := some (StorageAdapter.custom (MockAdapter true "cached" none)) }
    emptyState

/-- An instance over a mock adapter that hits, configured with the status code
-1. -/
def negativeStatusInstance : State Unit :=
  NewMiddleware
    { testOptions with
      Adapter := some (StorageAdapter.custom (MockAdapter true "cached" none)),
      ResponseStatusCode := -1 }
    emptyState

/-- An instance over a mock adapter that hits, configured with the status code
99. -/
def invalidStatusInstance : State Unit :=
  NewMiddleware
    { testOptions with
      Adapter := some (StorageAdapter.custom (MockAdapter true "cached" none)),
      ResponseStatusCode := 99 }
    emptyState

/-- An instance over a mock adapter whose `Get` misses and whose `Set` fails. -/
def mockSetErrorInstance : State Unit :=
  NewMiddleware
    { testOptions with
      Adapter := some (StorageAdapter.custom (MockAdapter false "" (some "TestError"))) }
    emptyState

/-- An instance whose TTL is 0. -/
def ttlZeroInstance : State Unit := NewMiddleware { testOptions with TTL := 0 } emptyState

/-- An instance whose key function fails, as in `TestGinCacheErrorKeyFunc`. -/
def keyErrorInstance : State Unit :=
  NewMiddleware { testOptions with KeyFunc := some (fun _ => ("", some "TestError")) } emptyState

/-- A sequence of later `Set` calls, each given by its key, content, TTL and the
instant at which it is made. -/
def setAll (later : List (String × String × Int × Int)) (m : SyncMap) : SyncMap :=
  later.foldl (fun m e => (MemoryAdapter.Set e.1 e.2.1 e.2.2.1 m e.2.2.2).2) m

/-- An instance over a mock adapter that hits, with an extra header named `ETag`
and `KeyAsETag` false. -/
def etagHeaderInstance : State Unit :=
  NewMiddleware
    { testOptions with
      Adapter := some (StorageAdapter.custom (MockAdapter true "cached" none)),
      Headers := [("ETag", "v1")] }
    emptyState

/-- An instance over a mock adapter that hits, with two extra headers and
`KeyAsETag` true. -/
def etagKeyInstance : State Unit :=
  NewMiddleware
    { testOptions with
      Adapter := some (StorageAdapter.custom (MockAdapter true "cached" none)),
      Headers := [("test", "test"), ("test2", "test2")],
      KeyAsETag := true }
    emptyState

/-- An instance over the memory adapter constructed with the content type
`text/html`. -/
def htmlInstance : State Unit :=
  NewMiddleware { testOptions with ResponseContentType := "text/html" } emptyState

/-- The actions of `c.Data(200, "text/plain; charset=utf-8", []byte("hi"))`: the
status, the `Content-Type` header, then one `Write` of the body. -/
def plainTextHandler : List Op :=
  [Op.Status 200, Op.Header "Content-Type" "text/plain; charset=utf-8", Op.Write "hi"]

/-! ## The memory adapter -/

theorem ttlDuration_eq (T : Int) (h1 : -9223372036 ≤ T) (h2 : T ≤ 9223372036) :
    ttlDuration T = Second * T := by
  unfold ttlDuration wrapInt64 Second
  omega

theorem timeUntil_nonpos (now t : Int) : timeUntil now t ≤ 0 ↔ t ≤ now := by
  unfold timeUntil timeSub maxDuration minDuration
  split_ifs <;> omega

theorem Load_Store_same (k : String) (v : Value) (m : SyncMap) :
    SyncMap.Load k (SyncMap.Store k v m) = some v := by
  simp [SyncMap.Load, SyncMap.Store, List.lookup]

theorem Load_Store_other (k k2 : String) (v : Value) (m : SyncMap) (h : k2 ≠ k) :
    SyncMap.Load k (SyncMap.Store k2 v m) = SyncMap.Load k m := by
  have : (k == k2) = false := by simpa using (fun e => h e.symm)
  simp [SyncMap.Load, SyncMap.Store, List.lookup, this]

theorem Get_of_Load (k : String) (m : SyncMap) (v : Value) (t : Int)
    (h : SyncMap.Load k m = some v) :
    MemoryAdapter.Get k m t = if t < v.ExpiresAt then (true, v.V, none) else (false, "", none) := by
  unfold MemoryAdapter.Get
  rw [h]
  simp only [timeUntil_nonpos]
  by_cases ht : t < v.ExpiresAt
  · simp [ht, not_le.mpr ht]
  · simp [ht, not_lt.mp ht]

/-! ## The capture writer -/

section
variable {σ : Type}

theorem adapterSet_shape (k v : String) (T : Int) (s : State σ) :
    ∃ st ex, (adapterSet k v T s).2 =
      { s with store := st, ext := ex, calls := s.calls ++ [Call.Set k v T] } := by
  unfold adapterSet
  rcases h : s.options.Adapter with _ | a
  · exact ⟨s.store, s.ext, by simp [h]⟩
  · cases a
    · exact ⟨(MemoryAdapter.Set k v T s.store s.now).2, s.ext, by simp [h]⟩
    · rename_i a
      exact ⟨s.store, (a.Set k v T s.ext).2, by simp [h]⟩

theorem learn_shape (s : State σ) :
    ∃ ct, bodyWriter.learnContentType s =
        { s with options := { s.options with ResponseContentType := ct } } ∧
      (s.options.ResponseContentType ≠ "" → ct = s.options.ResponseContentType) := by
  unfold bodyWriter.learnContentType
  by_cases h : s.options.ResponseContentType = ""
  · exact ⟨Header.Get "Content-Type" s.c.Writer.header, by simp [h], fun h2 => absurd h h2⟩
  · exact ⟨s.options.ResponseContentType, by simp [h], fun _ => rfl⟩

theorem save_shape (w : bodyWriter) (s : State σ) :
    ∃ st ex ks es, bodyWriter.save w s =
      { s with store := st, ext := ex,
               c := { s.c with Keys := ks, Errors := es },
               calls := s.calls ++ [Call.Set w.CacheKey w.body s.options.TTL] } := by
  unfold bodyWriter.save
  obtain ⟨st, ex, h⟩ := adapterSet_shape w.CacheKey w.body s.options.TTL s
  rcases he : (adapterSet w.CacheKey w.body s.options.TTL s).1 with _ | e
  · exact ⟨st, ex, s.c.Keys, s.c.Errors, by simp [h]⟩
  · exact ⟨st, ex, _, _, by simp [h, Context.Error, Context.Set]; exact ⟨rfl, rfl⟩⟩

theorem persist_shape (w : bodyWriter) (s : State σ) :
    ∃ st ex ks es ct, bodyWriter.persist w s =
      { s with store := st, ext := ex,
               options := { s.options with ResponseContentType := ct },
               c := { s.c with Keys := ks, Errors := es },
               calls := s.calls ++ [Call.Set w.CacheKey w.body s.options.TTL] } ∧
      (s.options.ResponseContentType ≠ "" → ct = s.options.ResponseContentType) := by
  unfold bodyWriter.persist
  obtain ⟨ct, h1, h2⟩ := learn_shape s
  obtain ⟨st, ex, ks, es, h3⟩ := save_shape w (bodyWriter.learnContentType s)
  refine ⟨st, ex, ks, es, ct, ?_, h2⟩
  rw [h3, h1]

/-- The eligibility test of `bodyWriter.Write`, as a proposition. -/
theorem eligible_iff (s : State σ) :
    (!isErrorResponse s && !s.options.DisableSet && !s.c.IsAborted) = true ↔
      s.c.Writer.status < 400 ∧ s.options.DisableSet = false ∧ s.c.index < abortIndex := by
  simp only [isErrorResponse, Context.IsAborted, Bool.and_eq_true, Bool.not_eq_true',
    decide_eq_false_iff_not, not_lt, not_le]
  constructor
  · rintro ⟨⟨h1, h2⟩, h3⟩; exact ⟨by omega, h2, h3⟩
  · rintro ⟨h1, h2, h3⟩; exact ⟨⟨by omega, h2⟩, h3⟩

theorem writerWrite_shape (b : String) (s : State σ) :
    ∃ st ex ks es ct cs, (writerWrite b s).2 =
      { s with store := st, ext := ex,
               options := { s.options with ResponseContentType := ct },
               c := { s.c with Keys := ks, Errors := es,
                               Writer := (ResponseWriter.Write b s.c.Writer).2,
                               capture := s.c.capture.map (fun w => { w with body := w.body ++ b }) },
               calls := s.calls ++ cs } ∧
      (s.options.ResponseContentType ≠ "" → ct = s.options.ResponseContentType) := by
  unfold writerWrite
  rcases hc : s.c.capture with _ | w
  · refine ⟨s.store, s.ext, s.c.Keys, s.c.Errors, s.options.ResponseContentType, [], ?_, fun _ => rfl⟩
    simp [realWrite, hc]
  · simp only [bodyWriter.Write]
    split
    · obtain ⟨st, ex, ks, es, ct, h, h2⟩ := persist_shape { w with body := w.body ++ b }
        { s with c := { s.c with capture := some { w with body := w.body ++ b } } }
      refine ⟨st, ex, ks, es, ct, [Call.Set w.CacheKey (w.body ++ b) s.options.TTL], ?_, h2⟩
      rw [h]
      simp [realWrite]
    · refine ⟨s.store, s.ext, s.c.Keys, s.c.Errors, s.options.ResponseContentType, [], ?_, fun _ => rfl⟩
      simp [realWrite]

theorem Write_status (b : String) (w : ResponseWriter) :
    (ResponseWriter.Write b w).2.status = w.status := by
  unfold ResponseWriter.Write ResponseWriter.WriteHeaderNow
  simp only
  split_ifs <;> rfl

theorem Write_header (b : String) (w : ResponseWriter) :
    (ResponseWriter.Write b w).2.header = w.header := by
  unfold ResponseWriter.Write ResponseWriter.WriteHeaderNow
  simp only
  split_ifs <;> rfl

theorem Write_body (b : String) (w : ResponseWriter)
    (h : (ResponseWriter.Write b w).2.panicked = false) :
    (ResponseWriter.Write b w).2.body = w.body ++ b := by
  unfold ResponseWriter.Write ResponseWriter.WriteHeaderNow at h ⊢
  simp only at h ⊢
  split_ifs at h ⊢ <;> simp_all

theorem Write_panicked (b : String) (w : ResponseWriter) (h : w.panicked = true) :
    (ResponseWriter.Write b w).2.panicked = true := by
  unfold ResponseWriter.Write ResponseWriter.WriteHeaderNow
  simp only
  split_ifs <;> simp_all

theorem WriteHeader_fields (code : Int) (w : ResponseWriter) :
    (ResponseWriter.WriteHeader code w).header = w.header ∧
    (ResponseWriter.WriteHeader code w).body = w.body ∧
    (ResponseWriter.WriteHeader code w).size = w.size ∧
    (ResponseWriter.WriteHeader code w).panicked = w.panicked := by
  unfold ResponseWriter.WriteHeader
  split_ifs <;> exact ⟨rfl, rfl, rfl, rfl⟩


theorem frame_refl (o : Options σ) : Options.frame o o :=
  ⟨o.ResponseContentType, rfl, fun _ => rfl⟩

theorem frame_trans {o1 o2 o3 : Options σ} (h1 : Options.frame o1 o2) (h2 : Options.frame o2 o3) :
    Options.frame o1 o3 := by
  obtain ⟨c1, e1, p1⟩ := h1
  obtain ⟨c2, e2, p2⟩ := h2
  refine ⟨c2, ?_, ?_⟩
  · rw [e2, e1]
  · intro h
    have h3 : c1 = o1.ResponseContentType := p1 h
    have h4 : o2.ResponseContentType = c1 := by rw [e1]
    rw [← h3, ← h4]
    apply p2
    rw [h4, h3]; exact h

theorem runOps_cons (op : Op) (ops : List Op) (s : State σ) :
    runOps (op :: ops) s = runOps ops (Op.run op s) := rfl

theorem runOps_nil (s : State σ) : runOps [] s = s := rfl

theorem runOps_append (a b : List Op) (s : State σ) :
    runOps (a ++ b) s = runOps b (runOps a s) := by
  simp [runOps, List.foldl_append]

theorem run_panicked (op : Op) (s : State σ) (h : s.c.Writer.panicked = true) :
    Op.run op s = s := by
  simp only [Op.run, h, if_true]

theorem run_live (op : Op) (s : State σ) (h : s.c.Writer.panicked = false) :
    Op.run op s = Op.exec op s := by
  simp [Op.run, h]

theorem runOps_panicked (ops : List Op) (s : State σ) (h : s.c.Writer.panicked = true) :
    runOps ops s = s := by
  induction ops with
  | nil => rfl
  | cons op ops ih => rw [runOps_cons, run_panicked op s h, ih]

theorem exec_index (op : Op) (s : State σ) :
    (Op.exec op s).c.index = if op = Op.Abort then abortIndex else s.c.index := by
  cases op with
  | Write b =>
    obtain ⟨st, ex, ks, es, ct, cs, h, _⟩ := writerWrite_shape b s
    simp [Op.exec, h]
  | _ => simp [Op.exec, Context.Abort]

theorem run_index (op : Op) (s : State σ) :
    (Op.run op s).c.index = s.c.index ∨ (Op.run op s).c.index = abortIndex := by
  unfold Op.run
  split
  · exact Or.inl rfl
  · rw [exec_index]
    split
    · exact Or.inr rfl
    · exact Or.inl rfl

theorem exec_key (op : Op) (s : State σ) : (Op.exec op s).key = s.key := by
  cases op with
  | Write b =>
    obtain ⟨st, ex, ks, es, ct, cs, h, _⟩ := writerWrite_shape b s
    simp [Op.exec, h]
  | _ => simp [Op.exec]

theorem run_key (op : Op) (s : State σ) : (Op.run op s).key = s.key := by
  unfold Op.run
  split
  · rfl
  · exact exec_key op s

theorem exec_frame (op : Op) (s : State σ) : Options.frame s.options (Op.exec op s).options := by
  cases op with
  | Write b =>
    obtain ⟨st, ex, ks, es, ct, cs, h, h2⟩ := writerWrite_shape b s
    exact ⟨ct, by simp [Op.exec, h], h2⟩
  | _ => exact frame_refl _

theorem run_frame (op : Op) (s : State σ) : Options.frame s.options (Op.run op s).options := by
  unfold Op.run
  split
  · exact frame_refl _
  · exact exec_frame op s

theorem exec_status (op : Op) (s : State σ) (h : op.isStatus = false) :
    (Op.exec op s).c.Writer.status = s.c.Writer.status := by
  cases op with
  | Write b =>
    obtain ⟨st, ex, ks, es, ct, cs, h, _⟩ := writerWrite_shape b s
    simp [Op.exec, h, Write_status]
  | Status code => simp [Op.isStatus] at h
  | _ => simp [Op.exec, Context.Abort]

theorem run_status (op : Op) (s : State σ) (h : op.isStatus = false) :
    (Op.run op s).c.Writer.status = s.c.Writer.status := by
  unfold Op.run
  split
  · rfl
  · exact exec_status op s h

theorem exec_body (op : Op) (s : State σ) (h : (Op.exec op s).c.Writer.panicked = false) :
    (Op.exec op s).c.Writer.body = s.c.Writer.body ++ written [op] := by
  cases op with
  | Write b =>
    obtain ⟨st, ex, ks, es, ct, cs, hx, _⟩ := writerWrite_shape b s
    simp only [Op.exec, hx] at h ⊢
    simp [written, Write_body b _ h]
  | Status code => simp [Op.exec, written, (WriteHeader_fields code s.c.Writer).2.1]
  | _ => simp [Op.exec, written, Context.Abort]

theorem exec_capture (op : Op) (s : State σ) :
    (Op.exec op s).c.capture =
      s.c.capture.map (fun w => { w with body := w.body ++ written [op] }) := by
  cases op with
  | Write b =>
    obtain ⟨st, ex, ks, es, ct, cs, h, _⟩ := writerWrite_shape b s
    simp [Op.exec, h, written]
  | _ =>
    cases hc : s.c.capture <;> simp [Op.exec, written, Context.Abort, hc]

theorem exec_panicked (op : Op) (s : State σ) (h : op.isWrite = false) :
    (Op.exec op s).c.Writer.panicked = s.c.Writer.panicked := by
  cases op with
  | Write b => simp [Op.isWrite] at h
  | Status code => simp [Op.exec, (WriteHeader_fields code s.c.Writer).2.2.2]
  | _ => simp [Op.exec, Context.Abort]


theorem written_cons (op : Op) (ops : List Op) : written (op :: ops) = written [op] ++ written ops := by
  cases op <;> simp [written]

theorem written_append (a b : List Op) : written (a ++ b) = written a ++ written b := by
  induction a with
  | nil => simp [written]
  | cons op a ih => rw [List.cons_append, written_cons, ih, written_cons op a, String.append_assoc]

theorem runOps_index (ops : List Op) (s : State σ) :
    (runOps ops s).c.index = s.c.index ∨ (runOps ops s).c.index = abortIndex := by
  induction ops generalizing s with
  | nil => exact Or.inl rfl
  | cons op ops ih =>
    rw [runOps_cons]
    rcases ih (Op.run op s) with h | h
    · rcases run_index op s with h2 | h2
      · exact Or.inl (h.trans h2)
      · exact Or.inr (h.trans h2)
    · exact Or.inr h

theorem runOps_key (ops : List Op) (s : State σ) : (runOps ops s).key = s.key := by
  induction ops generalizing s with
  | nil => rfl
  | cons op ops ih => rw [runOps_cons, ih, run_key]

theorem runOps_frame (ops : List Op) (s : State σ) :
    Options.frame s.options (runOps ops s).options := by
  induction ops generalizing s with
  | nil => exact frame_refl _
  | cons op ops ih => rw [runOps_cons]; exact frame_trans (run_frame op s) (ih _)

theorem runOps_status (ops : List Op) (s : State σ) (h : ∀ op ∈ ops, op.isStatus = false) :
    (runOps ops s).c.Writer.status = s.c.Writer.status := by
  induction ops generalizing s with
  | nil => rfl
  | cons op ops ih =>
    rw [runOps_cons, ih _ (fun o ho => h o (List.mem_cons_of_mem _ ho)),
      run_status op s (h op (List.mem_cons_self _ _))]

theorem runOps_live (op : Op) (ops : List Op) (s : State σ)
    (h : (runOps (op :: ops) s).c.Writer.panicked = false) :
    s.c.Writer.panicked = false ∧ (Op.exec op s).c.Writer.panicked = false ∧
      Op.run op s = Op.exec op s := by
  have h1 : s.c.Writer.panicked = false := by
    by_contra hc
    have hc2 : s.c.Writer.panicked = true := by simpa using hc
    rw [runOps_panicked _ s hc2] at h
    exact hc h
  have h2 := run_live op s h1
  refine ⟨h1, ?_, h2⟩
  by_contra hc
  have hc2 : (Op.run op s).c.Writer.panicked = true := by rw [h2]; simpa using hc
  rw [runOps_cons, runOps_panicked _ _ hc2, h2] at h
  exact hc h

theorem runOps_body (ops : List Op) (s : State σ)
    (h : (runOps ops s).c.Writer.panicked = false) :
    (runOps ops s).c.Writer.body = s.c.Writer.body ++ written ops := by
  induction ops generalizing s with
  | nil => simp [runOps_nil, written]
  | cons op ops ih =>
    obtain ⟨_, h2, h3⟩ := runOps_live op ops s h
    rw [runOps_cons] at h ⊢
    rw [ih _ h, h3, exec_body op s h2, written_cons op ops, String.append_assoc]

theorem runOps_capture (ops : List Op) (s : State σ)
    (h : (runOps ops s).c.Writer.panicked = false) :
    (runOps ops s).c.capture =
      s.c.capture.map (fun w => { w with body := w.body ++ written ops }) := by
  induction ops generalizing s with
  | nil => cases h : s.c.capture <;> simp [runOps_nil, written, h]
  | cons op ops ih =>
    obtain ⟨_, h2, h3⟩ := runOps_live op ops s h
    rw [runOps_cons] at h ⊢
    rw [ih _ h, h3, exec_capture, written_cons op ops]
    cases hc : s.c.capture <;> simp [String.append_assoc]

theorem run_capture_key (op : Op) (s : State σ) :
    (Op.run op s).c.capture.map bodyWriter.CacheKey = s.c.capture.map bodyWriter.CacheKey := by
  unfold Op.run
  split
  · rfl
  · rw [exec_capture]
    cases s.c.capture <;> rfl

theorem runOps_capture_key (ops : List Op) (s : State σ) :
    (runOps ops s).c.capture.map bodyWriter.CacheKey = s.c.capture.map bodyWriter.CacheKey := by
  induction ops generalizing s with
  | nil => rfl
  | cons op ops ih => rw [runOps_cons, ih, run_capture_key]

theorem frame_TTL {o o2 : Options σ} (h : Options.frame o o2) : o2.TTL = o.TTL := by
  obtain ⟨ct, e, _⟩ := h; rw [e]
theorem frame_DisableSet {o o2 : Options σ} (h : Options.frame o o2) :
    o2.DisableSet = o.DisableSet := by
  obtain ⟨ct, e, _⟩ := h; rw [e]
theorem frame_Adapter {o o2 : Options σ} (h : Options.frame o o2) : o2.Adapter = o.Adapter := by
  obtain ⟨ct, e, _⟩ := h; rw [e]
theorem frame_KeyFunc {o o2 : Options σ} (h : Options.frame o o2) : o2.KeyFunc = o.KeyFunc := by
  obtain ⟨ct, e, _⟩ := h; rw [e]
theorem frame_ContentType {o o2 : Options σ} (h : Options.frame o o2)
    (hne : o.ResponseContentType ≠ "") : o2.ResponseContentType = o.ResponseContentType := by
  obtain ⟨ct, e, p⟩ := h; rw [e]; exact p hne


theorem adapterGet_shape (k : String) (s : State σ) :
    ∃ ex, (adapterGet k s).2 = { s with ext := ex, calls := s.calls ++ [Call.Get k] } := by
  unfold adapterGet
  rcases h : s.options.Adapter with _ | a
  · exact ⟨s.ext, by simp [h]⟩
  · cases a
    · exact ⟨s.ext, by simp [h]⟩
    · rename_i a
      exact ⟨(a.Get k s.ext).2, by simp [h]⟩

theorem adapterGet_ext (k : String) (s t : State σ) (ho : t.options.Adapter = s.options.Adapter)
    (he : t.ext = s.ext) :
    (adapterGet k t).2.ext = (adapterGet k s).2.ext := by
  unfold adapterGet
  simp only [ho, he]
  rcases h : s.options.Adapter with _ | a
  · simp [he]
  · cases a <;> simp [he]

theorem adapterGet_result (k : String) (s t : State σ) (ho : t.options.Adapter = s.options.Adapter)
    (hs : t.store = s.store) (hn : t.now = s.now) (he : t.ext = s.ext) :
    (adapterGet k t).1 = (adapterGet k s).1 := by
  unfold adapterGet
  simp only [ho, hs, hn, he]
  rcases h : s.options.Adapter with _ | a
  · simp
  · cases a <;> simp

theorem handlerAt_two (a b : HandlerFunc σ) (i : Int) (h : 2 ≤ i) : handlerAt [a, b] i = none := by
  unfold handlerAt
  have h0 : 0 ≤ i := by omega
  have h2 : 2 ≤ i.toNat := by omega
  simp only [h0, if_true]
  exact List.get?_eq_none.mpr (by simpa using h2)

theorem down_index (ops : List Op) (s : State σ) (h : s.c.index = 0) :
    2 ≤ (bump (downstream ops id (bump s))).c.index := by
  have hi := runOps_index ops ({ (bump s) with calls := (bump s).calls ++ [Call.Handler] } : State σ)
  change 2 ≤ (runOps ops _).c.index + 1
  rcases hi with h1 | h1
  · rw [h1]; simp [bump, h]
  · rw [h1]; simp [abortIndex]

theorem after_index (s : State σ) (h : s.c.Writer.panicked = false) :
    (after s).c.index = s.c.index + 1 := by
  simp [after, h, bump]

theorem after_panicked (s : State σ) : (after s).c.Writer.panicked = s.c.Writer.panicked := by
  unfold after
  split <;> rfl

theorem after_fields (s : State σ) :
    (after s).calls = s.calls ∧ (after s).store = s.store ∧ (after s).ext = s.ext ∧
    (after s).options = s.options ∧ (after s).key = s.key ∧ (after s).now = s.now ∧
    (after s).c.Writer = s.c.Writer ∧ (after s).c.capture = s.c.capture ∧
    (after s).c.Keys = s.c.Keys ∧ (after s).c.Errors = s.c.Errors := by
  unfold after
  split <;> exact ⟨rfl, rfl, rfl, rfl, rfl, rfl, rfl, rfl, rfl, rfl⟩

theorem Next_succ (d : Nat) (ops : List Op) (s : State σ) (h : s.c.index = 0) :
    Next (d + 1) [NewMiddleware.handler, downstream ops] s = nextDown ops s := by
  have e1 : handlerAt ([NewMiddleware.handler, downstream ops] : List (HandlerFunc σ))
      (bump s).c.index = some (downstream ops) := by
    simp [handlerAt, bump, h]
  have e2 := handlerAt_two (NewMiddleware.handler : HandlerFunc σ) (downstream ops) _
    (down_index ops s h)
  have e3 : handlerAt ([NewMiddleware.handler, downstream ops] : List (HandlerFunc σ))
      (bump (downstream ops (Next d [NewMiddleware.handler, downstream ops]) (bump s))).c.index
        = none := e2
  simp only [Next, List.length, nextLoop, e1, e3]
  rfl

theorem get_shape (s : State σ) :
    ∃ ex, (NewMiddleware.get s).2 =
      { s with ext := ex, calls := s.calls ++ [Call.Get s.key],
               c := Context.Set "CacheKey" (KeyVal.CacheKey s.key) s.c } := by
  obtain ⟨ex, hx⟩ := adapterGet_shape s.key
    { s with c := Context.Set "CacheKey" (KeyVal.CacheKey s.key) s.c }
  exact ⟨ex, by rw [NewMiddleware.get, hx]⟩

theorem hit_index (key result : String) (s : State σ) :
    (NewMiddleware.hit key result s).c.index = abortIndex ∨
      (NewMiddleware.hit key result s).c.Writer.panicked = true := by
  unfold NewMiddleware.hit
  simp only
  split
  · rename_i h; exact Or.inr h
  · exact Or.inl rfl

theorem lookup_cases (s : State σ) :
    ((NewMiddleware.lookup id s).c.index = s.c.index ∧
        ∀ nx, NewMiddleware.lookup nx s = nx (NewMiddleware.lookup id s)) ∨
    (((NewMiddleware.lookup id s).c.index = abortIndex ∨
        (NewMiddleware.lookup id s).c.Writer.panicked = true) ∧
        ∀ nx, NewMiddleware.lookup nx s = NewMiddleware.lookup id s) := by
  obtain ⟨ex, hx⟩ := get_shape s
  by_cases hc : ((NewMiddleware.get s).1.1 && (NewMiddleware.get s).1.2.2.isNone) = true
  · right
    refine ⟨?_, fun nx => ?_⟩
    · simp only [NewMiddleware.lookup, if_pos hc]
      exact hit_index _ _ _
    · simp only [NewMiddleware.lookup, if_pos hc]
  · left
    refine ⟨?_, fun nx => ?_⟩
    · simp only [NewMiddleware.lookup, if_neg hc, NewMiddleware.miss, id, hx, Context.Set]
    · simp only [NewMiddleware.lookup, if_neg hc, NewMiddleware.miss, id]

theorem resolve_cases (s : State σ) :
    ((NewMiddleware.resolve id s).c.index = s.c.index ∧
        ∀ nx, NewMiddleware.resolve nx s = nx (NewMiddleware.resolve id s)) ∨
    (((NewMiddleware.resolve id s).c.index = abortIndex ∨
        (NewMiddleware.resolve id s).c.Writer.panicked = true) ∧
        ∀ nx, NewMiddleware.resolve nx s = NewMiddleware.resolve id s) := by
  rcases hk : s.options.KeyFunc with _ | f
  · have e : ∀ nx, NewMiddleware.resolve nx s = NewMiddleware.lookup nx s := by
      intro nx; simp only [NewMiddleware.resolve, hk]
    simp only [e]
    exact lookup_cases s
  · rcases hr : (f s.c).2 with _ | err
    · have e : ∀ nx, NewMiddleware.resolve nx s = NewMiddleware.lookup nx
          { s with calls := s.calls ++ [Call.KeyFunc], key := (f s.c).1 } := by
        intro nx; simp only [NewMiddleware.resolve, hk, hr]
      simp only [e]
      exact lookup_cases ({ s with calls := s.calls ++ [Call.KeyFunc], key := (f s.c).1 } : State σ)
    · right
      refine ⟨?_, fun nx => ?_⟩
      · left
        simp only [NewMiddleware.resolve, hk, hr, Context.Abort]
      · simp only [NewMiddleware.resolve, hk, hr]

theorem handler_cases (s : State σ) :
    ((NewMiddleware.handler id s).c.index = s.c.index ∧
        ∀ nx, NewMiddleware.handler nx s = nx (NewMiddleware.handler id s)) ∨
    (((NewMiddleware.handler id s).c.index = abortIndex ∨
        (NewMiddleware.handler id s).c.Writer.panicked = true) ∧
        ∀ nx, NewMiddleware.handler nx s = NewMiddleware.handler id s) := by
  by_cases h0 : s.options.TTL = 0
  · left
    refine ⟨?_, fun nx => ?_⟩
    · simp only [NewMiddleware.handler, if_pos h0, id, Context.Set]
    · simp only [NewMiddleware.handler, if_pos h0, id]
  · have e : ∀ nx, NewMiddleware.handler nx s = NewMiddleware.resolve nx
        { s with c := Context.Set "CacheOptions" KeyVal.CacheOptions s.c } := by
      intro nx; simp only [NewMiddleware.handler, if_neg h0]
    simp only [e]
    exact resolve_cases
      ({ s with c := Context.Set "CacheOptions" KeyVal.CacheOptions s.c } : State σ)

theorem serve_depth (d : Nat) (ops : List Op) (req : String) (s : State σ) :
    Next (d + 2) [NewMiddleware.handler, downstream ops] { s with c := Context.reset req } =
      after (NewMiddleware.handler (nextDown ops) (bump { s with c := Context.reset req })) := by
  have e1 : handlerAt ([NewMiddleware.handler, downstream ops] : List (HandlerFunc σ))
      (bump { s with c := Context.reset req }).c.index = some NewMiddleware.handler := by
    simp [handlerAt, bump, Context.reset]
  have hi : (bump { s with c := Context.reset req }).c.index = 0 := by
    simp [bump, Context.reset]
  have key : NewMiddleware.handler (Next (d + 1) [NewMiddleware.handler, downstream ops])
        (bump { s with c := Context.reset req })
      = NewMiddleware.handler (nextDown ops) (bump { s with c := Context.reset req }) ∧
      ((NewMiddleware.handler (nextDown ops)
          (bump { s with c := Context.reset req })).c.Writer.panicked = false →
        1 ≤ (NewMiddleware.handler (nextDown ops)
          (bump { s with c := Context.reset req })).c.index) := by
    rcases handler_cases (bump { s with c := Context.reset req }) with ⟨h1, h2⟩ | ⟨h1, h2⟩
    · rw [h2, h2 (nextDown ops), Next_succ d ops _ (h1.trans hi)]
      refine ⟨rfl, fun hp => ?_⟩
      have hd := down_index ops _ (h1.trans hi)
      have hp2 : (downstream ops id (bump (NewMiddleware.handler id
          (bump { s with c := Context.reset req })))).c.Writer.panicked = false := by
        rw [← after_panicked]; exact hp
      have ha := after_index _ hp2
      change 2 ≤ (downstream ops id _).c.index + 1 at hd
      rw [nextDown, ha]
      omega
    · rw [h2, h2 (nextDown ops)]
      refine ⟨rfl, fun hp => ?_⟩
      rcases h1 with h1 | h1
      · rw [h1]; simp [abortIndex]
      · rw [h1] at hp; exact absurd hp (by simp)
  change nextLoop _ _ (1 + 1) _ = _
  simp only [nextLoop, e1, key.1]
  unfold after
  split
  · rfl
  · rename_i hp
    have hp2 : (NewMiddleware.handler (nextDown ops)
        (bump { s with c := Context.reset req })).c.Writer.panicked = false := by
      simpa using hp
    have e2 := handlerAt_two (NewMiddleware.handler : HandlerFunc σ) (downstream ops)
      (bump (NewMiddleware.handler (nextDown ops)
        (bump { s with c := Context.reset req }))).c.index
      (by
        have h := key.2 hp2
        change 2 ≤ (NewMiddleware.handler (nextDown ops) _).c.index + 1
        omega)
    change nextLoop _ _ (0 + 1) _ = _
    simp only [nextLoop, e2]

theorem serve_eq (ops : List Op) (req : String) (s : State σ) :
    ServeHTTP ops req s =
      after (NewMiddleware.handler (nextDown ops) (bump { s with c := Context.reset req })) :=
  serve_depth 0 ops req s

/-- The nesting bound of `ServeHTTP` is enough: a larger one gives the same state. -/
theorem serve_depth_stable (d : Nat) (ops : List Op) (req : String) (s : State σ) :
    Next (d + 2) [NewMiddleware.handler, downstream ops] { s with c := Context.reset req } =
      ServeHTTP ops req s := by
  rw [serve_depth, serve_eq]

theorem adapterSet_result (k v : String) (T : Int) (s t : State σ)
    (ho : t.options.Adapter = s.options.Adapter)
    (hs : t.store = s.store) (hn : t.now = s.now) (he : t.ext = s.ext) :
    (adapterSet k v T t).1 = (adapterSet k v T s).1 := by
  unfold adapterSet
  simp only [ho, hs, hn, he]
  rcases h : s.options.Adapter with _ | a
  · simp
  · cases a <;> simp

theorem adapterSet_memory (k v : String) (T : Int) (s : State σ)
    (h : s.options.Adapter = some StorageAdapter.memory) :
    (adapterSet k v T s).1 = none ∧
    (adapterSet k v T s).2.store = SyncMap.Store k ⟨v, s.now + ttlDuration T⟩ s.store := by
  unfold adapterSet
  simp [h, MemoryAdapter.Set, timeAdd]

theorem learn_fields (s : State σ) :
    (bodyWriter.learnContentType s).options.Adapter = s.options.Adapter ∧
    (bodyWriter.learnContentType s).options.TTL = s.options.TTL ∧
    (bodyWriter.learnContentType s).store = s.store ∧
    (bodyWriter.learnContentType s).now = s.now ∧
    (bodyWriter.learnContentType s).ext = s.ext ∧
    (bodyWriter.learnContentType s).c = s.c := by
  obtain ⟨ct, h, _⟩ := learn_shape s
  rw [h]
  exact ⟨rfl, rfl, rfl, rfl, rfl, rfl⟩

theorem persist_ctx (w : bodyWriter) (s : State σ) :
    (bodyWriter.persist w s).c =
      match (adapterSet w.CacheKey w.body s.options.TTL s).1 with
      | some err => Context.Error err (Context.Set "CacheSetError" (KeyVal.CacheSetError err) s.c)
      | none => s.c := by
  obtain ⟨h1, h2, h3, h4, h5, h6⟩ := learn_fields s
  have hr := adapterSet_result w.CacheKey w.body s.options.TTL s (bodyWriter.learnContentType s)
    h1 h3 h4 h5
  obtain ⟨st, ex, hx⟩ := adapterSet_shape w.CacheKey w.body s.options.TTL
    (bodyWriter.learnContentType s)
  unfold bodyWriter.persist bodyWriter.save
  rw [h2, hr]
  rcases (adapterSet w.CacheKey w.body s.options.TTL s).1 with _ | e
  · simp only [hx, h6]
  · simp only [hx, h6]

theorem persist_store_memory (w : bodyWriter) (s : State σ)
    (h : s.options.Adapter = some StorageAdapter.memory) :
    (bodyWriter.persist w s).store =
      SyncMap.Store w.CacheKey ⟨w.body, s.now + ttlDuration s.options.TTL⟩ s.store := by
  obtain ⟨h1, h2, h3, h4, h5, h6⟩ := learn_fields s
  obtain ⟨e1, e2⟩ := adapterSet_memory w.CacheKey w.body s.options.TTL
    (bodyWriter.learnContentType s) (h1.trans h)
  unfold bodyWriter.persist bodyWriter.save
  rw [h2, e1]
  simp only [e2, h3, h4]

theorem eligible_capture (w : bodyWriter) (s : State σ) :
    (!isErrorResponse ({ s with c := { s.c with capture := some w } } : State σ) &&
        !s.options.DisableSet && !Context.IsAborted { s.c with capture := some w }) =
      (!isErrorResponse s && !s.options.DisableSet && !s.c.IsAborted) := rfl

theorem Write_eligible (w : bodyWriter) (b : String) (s : State σ)
    (h : (!isErrorResponse s && !s.options.DisableSet && !s.c.IsAborted) = true) :
    bodyWriter.Write w b s = realWrite b (bodyWriter.persist { w with body := w.body ++ b }
      { s with c := { s.c with capture := some { w with body := w.body ++ b } } }) := by
  simp only [bodyWriter.Write, eligible_capture, h, if_true]

theorem Write_ineligible (w : bodyWriter) (b : String) (s : State σ)
    (h : ¬ (!isErrorResponse s && !s.options.DisableSet && !s.c.IsAborted) = true) :
    bodyWriter.Write w b s = realWrite b
      { s with c := { s.c with capture := some { w with body := w.body ++ b } } } := by
  simp only [bodyWriter.Write, eligible_capture, if_neg h]


theorem entry_eq (req : String) (s : State σ) :
    ({ (bump { s with c := Context.reset req }) with
        c := Context.Set "CacheOptions" KeyVal.CacheOptions
          (bump { s with c := Context.reset req }).c } : State σ) =
      { s with c := keyFuncContext req } := by
  simp [bump, keyFuncContext, Context.reset, Context.Set]

theorem handler_bypass (nx : State σ → State σ) (req : String) (s : State σ)
    (h : s.options.TTL = 0) :
    NewMiddleware.handler nx (bump { s with c := Context.reset req }) =
      nx { s with c := keyFuncContext req } := by
  have h2 : (bump { s with c := Context.reset req }).options.TTL = 0 := h
  simp only [NewMiddleware.handler, if_pos h2, entry_eq]

theorem handler_resolve (nx : State σ → State σ) (req : String) (s : State σ)
    (h : s.options.TTL ≠ 0) :
    NewMiddleware.handler nx (bump { s with c := Context.reset req }) =
      NewMiddleware.resolve nx { s with c := keyFuncContext req } := by
  have h2 : ¬ (bump { s with c := Context.reset req }).options.TTL = 0 := h
  simp only [NewMiddleware.handler, if_neg h2, entry_eq]

theorem handler_resolved (nx : State σ → State σ) (req k : String) (s : State σ)
    (h : s.options.TTL ≠ 0) (hk : resolveKey s req = (k, none)) :
    NewMiddleware.handler nx (bump { s with c := Context.reset req }) =
      NewMiddleware.lookup nx (atLookup s req k) := by
  rw [handler_resolve nx req s h]
  unfold resolveKey at hk
  unfold atLookup keyFuncCalls NewMiddleware.resolve
  rcases hf : s.options.KeyFunc with _ | f
  · rw [hf] at hk
    have h1 : s.key = k := by simpa using hk
    simp only [hf, List.append_nil, h1]
  · rw [hf] at hk
    simp only at hk
    have h1 : (f (keyFuncContext req)).1 = k := by rw [hk]
    have h2 : (f (keyFuncContext req)).2 = none := by rw [hk]
    simp only [hf, h2, h1]

theorem handler_keyerr (nx : State σ → State σ) (req k : String) (e : Error) (s : State σ)
    (h : s.options.TTL ≠ 0) (hk : resolveKey s req = (k, some e)) :
    NewMiddleware.handler nx (bump { s with c := Context.reset req }) =
      { s with c := Context.Abort (keyFuncContext req), key := k,
               calls := s.calls ++ [Call.KeyFunc] } := by
  rw [handler_resolve nx req s h]
  unfold resolveKey at hk
  unfold NewMiddleware.resolve
  rcases hf : s.options.KeyFunc with _ | f
  · rw [hf] at hk
    simp at hk
  · rw [hf] at hk
    simp only at hk
    have h1 : (f (keyFuncContext req)).1 = k := by rw [hk]
    have h2 : (f (keyFuncContext req)).2 = some e := by rw [hk]
    simp only [hf, h2, h1]


theorem canon_ETag : CanonicalMIMEHeaderKey "ETag" = "Etag" := by decide

theorem canon_ContentType : CanonicalMIMEHeaderKey "Content-Type" = "Content-Type" := by decide

theorem foldl_Add (l : List (String × String)) (h0 : Header) :
    List.foldl (fun h kv => Header.Add kv.1 kv.2 h) h0 l = h0 ++ canonicalHeaders l := by
  induction l generalizing h0 with
  | nil => simp [canonicalHeaders]
  | cons kv l ih => rw [List.foldl_cons, ih]; simp [Header.Add, canonicalHeaders]

theorem hitHeader_eq (key : String) (s : State σ) :
    NewMiddleware.hitHeader key s =
      { s with c := { s.c with Writer := hitSink s.options key s.c.Writer } } := by
  unfold NewMiddleware.hitHeader hitSink hitHeaders
  simp only [foldl_Add]
  simp only [Header.Add, canon_ETag, canon_ContentType,
    DefaultCachedResponseStatusCode, DefaultCachedResponseContentType]
  by_cases he : s.options.KeyAsETag = true <;> simp [he]

theorem WriteHeader_fresh (rsc : Int) (w : ResponseWriter) (hsz : w.size = -1)
    (hs : w.status = 200) :
    ResponseWriter.WriteHeader (if rsc = 0 then 200 else rsc) w =
      { w with status := if 0 < rsc then rsc else 200 } := by
  unfold ResponseWriter.WriteHeader ResponseWriter.Written
  rcases w with ⟨st, hd, bd, sz, pn⟩
  simp only at hsz hs
  subst hsz hs
  by_cases h0 : rsc = 0
  · simp [h0]
  · by_cases h1 : 0 < rsc
    · by_cases h2 : rsc = 200
      · simp [h2]
      · have h3 : ¬ (200 : Int) = rsc := fun e => h2 e.symm
        simp [h0, h1, h3]
    · simp [h0, h1]

theorem hit_reset (key result : String) (s : State σ) (hc : s.c.capture = none)
    (hw : s.c.Writer = { status := 200, header := [], body := "", size := -1, panicked := false }) :
    NewMiddleware.hit key result s =
      if hitStatus s.options < 100 ∨ hitStatus s.options > 999 then
        { s with c := { s.c with Writer :=
            { status := hitStatus s.options, header := hitHeaders s.options key, body := "",
              size := 0, panicked := true } } }
      else
        { s with c := { s.c with
            index := abortIndex,
            Writer :=
              { status := hitStatus s.options, header := hitHeaders s.options key, body := result,
                size := result.utf8ByteSize, panicked := false } } } := by
  have e : hitSink s.options key s.c.Writer =
      { status := hitStatus s.options, header := hitHeaders s.options key, body := "",
        size := -1, panicked := false } := by
    unfold hitSink
    rw [hw, WriteHeader_fresh _ _ rfl rfl]
    simp [hitStatus]
  unfold NewMiddleware.hit
  rw [hitHeader_eq, e]
  simp only [writerWrite, hc, realWrite, ResponseWriter.Write, ResponseWriter.WriteHeaderNow,
    ResponseWriter.Written, hitStatus, Context.Abort]
  by_cases hv : (if 0 < s.options.ResponseStatusCode then s.options.ResponseStatusCode else 200) < 100
      ∨ (if 0 < s.options.ResponseStatusCode then s.options.ResponseStatusCode else 200) > 999
  · simp [hv]
  · simp [hv]

theorem serve_bypass (ops : List Op) (req : String) (s : State σ) (h : s.options.TTL = 0) :
    ServeHTTP ops req s = after (nextDown ops { s with c := keyFuncContext req }) := by
  rw [serve_eq, handler_bypass _ req s h]

theorem serve_keyerr (ops : List Op) (req k : String) (e : Error) (s : State σ)
    (h : s.options.TTL ≠ 0) (hk : resolveKey s req = (k, some e)) :
    ServeHTTP ops req s =
      bump { s with c := Context.Abort (keyFuncContext req), key := k,
                    calls := s.calls ++ [Call.KeyFunc] } := by
  rw [serve_eq, handler_keyerr _ req k e s h hk]
  rfl

theorem serve_hit (ops : List Op) (req k payload : String) (s : State σ)
    (h : s.options.TTL ≠ 0) (hk : resolveKey s req = (k, none))
    (hget : (adapterGet k s).1 = (true, payload, none)) :
    (ServeHTTP ops req s).calls = s.calls ++ keyFuncCalls s ++ [Call.Get k] ∧
    (ServeHTTP ops req s).options = s.options ∧
    (ServeHTTP ops req s).store = s.store ∧
    (ServeHTTP ops req s).key = k ∧
    (ServeHTTP ops req s).c.capture = none ∧
    (ServeHTTP ops req s).c.Writer.status = hitStatus s.options ∧
    (ServeHTTP ops req s).c.Writer.header = hitHeaders s.options k ∧
    (¬ (hitStatus s.options < 100 ∨ hitStatus s.options > 999) →
      (ServeHTTP ops req s).c.Writer.body = payload ∧
      (ServeHTTP ops req s).c.IsAborted = true ∧
      (ServeHTTP ops req s).c.Writer.panicked = false) ∧
    ((hitStatus s.options < 100 ∨ hitStatus s.options > 999) →
      (ServeHTTP ops req s).c.Writer.body = "" ∧
      (ServeHTTP ops req s).c.IsAborted = false ∧
      (ServeHTTP ops req s).c.Writer.panicked = true) := by
  rw [serve_eq, handler_resolved _ req k s h hk]
  obtain ⟨ex, hx⟩ := get_shape (atLookup s req k)
  have hr : (NewMiddleware.get (atLookup s req k)).1 = (true, payload, none) := by
    rw [← hget]
    exact adapterGet_result k s _ rfl rfl rfl rfl
  unfold NewMiddleware.lookup
  simp only [hr, Bool.true_and, Option.isNone_none, if_true, hx]
  rw [hit_reset _ _ _ (by simp [atLookup, Context.Set, keyFuncContext, Context.reset])
    (by simp [atLookup, Context.Set, keyFuncContext, Context.reset])]
  by_cases hv : hitStatus s.options < 100 ∨ hitStatus s.options > 999
  · simp only [atLookup] at hv ⊢
    simp only [hv, if_true]
    simp [after, atLookup, Context.IsAborted, abortIndex, keyFuncContext, Context.Set,
      Context.reset]
  · simp only [atLookup] at hv ⊢
    simp only [hv, if_false]
    simp [after, bump, atLookup, Context.IsAborted, abortIndex, keyFuncContext, Context.Set,
      Context.reset]

theorem serve_miss (ops : List Op) (req k : String) (s : State σ)
    (h : s.options.TTL ≠ 0) (hk : resolveKey s req = (k, none))
    (hget : ((adapterGet k s).1.1 && (adapterGet k s).1.2.2.isNone) = false) :
    ServeHTTP ops req s = after (after (runOps ops (missEntry s req k))) := by
  rw [serve_eq, handler_resolved _ req k s h hk]
  obtain ⟨ex, hx⟩ := get_shape (atLookup s req k)
  have hr : (NewMiddleware.get (atLookup s req k)).1 = (adapterGet k s).1 :=
    adapterGet_result k s _ rfl rfl rfl rfl
  have he : (NewMiddleware.get (atLookup s req k)).2.ext = (adapterGet k s).2.ext :=
    adapterGet_ext k s _ rfl rfl
  rw [hx] at he
  simp only at he
  rw [he] at hx
  unfold NewMiddleware.lookup
  simp only [hr, hget, Bool.false_eq_true, if_false, hx, NewMiddleware.miss, nextDown, downstream]
  simp [missEntry, atLookup, bump, keyFuncContext, Context.Set, Context.reset]

theorem run_nocapture (op : Op) (s : State σ) (h : s.c.capture = none) :
    (Op.run op s).calls = s.calls ∧ (Op.run op s).store = s.store ∧
      (Op.run op s).ext = s.ext ∧ (Op.run op s).options = s.options ∧
      (Op.run op s).c.capture = none := by
  unfold Op.run
  split
  · exact ⟨rfl, rfl, rfl, rfl, h⟩
  · cases op with
    | Write b => simp [Op.exec, writerWrite, h, realWrite]
    | _ => simp [Op.exec, h, Context.Abort]

theorem runOps_nocapture (ops : List Op) (s : State σ) (h : s.c.capture = none) :
    (runOps ops s).calls = s.calls ∧ (runOps ops s).store = s.store ∧
      (runOps ops s).ext = s.ext ∧ (runOps ops s).options = s.options ∧
      (runOps ops s).c.capture = none := by
  induction ops generalizing s with
  | nil => exact ⟨rfl, rfl, rfl, rfl, h⟩
  | cons op ops ih =>
    obtain ⟨h1, h2, h3, h4, hc⟩ := run_nocapture op s h
    obtain ⟨i1, i2, i3, i4, i5⟩ := ih (Op.run op s) hc
    rw [runOps_cons]
    exact ⟨i1.trans h1, i2.trans h2, i3.trans h3, i4.trans h4, i5⟩

/-- C1 (hit short-circuit), amended. For a configuration with TTL > 0 and a request whose key
resolves to `k`, if the adapter's `Get` returns `(true, payload, nil)` then the calls made while
the request is served are the key function (when configured) and `Get k` only: the downstream
handler is not entered and `Set` is not called, and the store is unchanged. The sink holds the
status `ResponseStatusCode` when that is positive and 200 otherwise. When `ResponseStatusCode`
is 0 or a valid status code (100 to 999), the status is `ResponseStatusCode` if non-zero and 200
otherwise, the response body is exactly `payload`, and the request ends aborted. -/
theorem hit_short_circuit (ops : List Op) (req k payload : String) (s : State σ)
    (hTTL : 0 < s.options.TTL) (hk : resolveKey s req = (k, none))
    (hget : (adapterGet k s).1 = (true, payload, none)) :
    (ServeHTTP ops req s).calls = s.calls ++ keyFuncCalls s ++ [Call.Get k] ∧
    Call.Handler ∉ keyFuncCalls s ++ [Call.Get k] ∧
    (∀ key content T, Call.Set key content T ∉ keyFuncCalls s ++ [Call.Get k]) ∧
    (ServeHTTP ops req s).store = s.store ∧
    (ServeHTTP ops req s).c.Writer.status =
      (if 0 < s.options.ResponseStatusCode then s.options.ResponseStatusCode else 200) ∧
    ((s.options.ResponseStatusCode = 0 ∨
        (100 ≤ s.options.ResponseStatusCode ∧ s.options.ResponseStatusCode ≤ 999)) →
      (ServeHTTP ops req s).c.Writer.status =
        (if s.options.ResponseStatusCode = 0 then 200 else s.options.ResponseStatusCode) ∧
      (ServeHTTP ops req s).c.Writer.body = payload ∧
      (ServeHTTP ops req s).c.IsAborted = true ∧
      (ServeHTTP ops req s).c.Writer.panicked = false) := by
  obtain ⟨h1, _, h3, _, _, h6, _, h8, _⟩ := serve_hit ops req k payload s (by omega) hk hget
  refine ⟨h1, ?_, ?_, h3, h6, ?_⟩
  · unfold keyFuncCalls; cases s.options.KeyFunc <;> simp
  · intro key content T
    unfold keyFuncCalls; cases s.options.KeyFunc <;> simp
  · intro hv
    have hvalid : ¬ (hitStatus s.options < 100 ∨ hitStatus s.options > 999) := by
      unfold hitStatus
      split_ifs <;> omega
    obtain ⟨b1, b2, b3⟩ := h8 hvalid
    refine ⟨?_, b1, b2, b3⟩
    rw [h6]
    unfold hitStatus
    split_ifs <;> omega

/-- C1, at an instance whose mock adapter finds the payload `cached`. -/
theorem hit_short_circuit_witness :
    (0 < mockHitInstance.options.TTL ∧ resolveKey mockHitInstance "/" = ("K", none) ∧
      (adapterGet "K" mockHitInstance).1 = (true, "cached", none)) ∧
    (ServeHTTP [Op.Write "live"] "/" mockHitInstance).calls = [Call.Get "K"] ∧
    (ServeHTTP [Op.Write "live"] "/" mockHitInstance).c.Writer.status = 200 ∧
    (ServeHTTP [Op.Write "live"] "/" mockHitInstance).c.Writer.body = "cached" := by
  have h := hit_short_circuit [Op.Write "live"] "/" "K" "cached" mockHitInstance
    (by decide) rfl rfl
  exact ⟨⟨by decide, rfl, rfl⟩, h.1, (h.2.2.2.2.2 (Or.inl rfl)).1, (h.2.2.2.2.2 (Or.inl rfl)).2.1⟩

/-- C1 fails as stated. With `ResponseStatusCode` -1 gin ignores the code and the hit is sent
with status 200, not -1. With `ResponseStatusCode` 99 the `Write` of the payload panics on the
invalid status code and no body byte is written. -/
theorem hit_short_circuit_counterexample :
    (0 < negativeStatusInstance.options.TTL ∧
      negativeStatusInstance.options.ResponseStatusCode = -1 ∧
      (adapterGet "K" negativeStatusInstance).1 = (true, "cached", none) ∧
      (ServeHTTP [] "/" negativeStatusInstance).c.Writer.status = 200) ∧
    (0 < invalidStatusInstance.options.TTL ∧
      invalidStatusInstance.options.ResponseStatusCode = 99 ∧
      (adapterGet "K" invalidStatusInstance).1 = (true, "cached", none) ∧
      (ServeHTTP [] "/" invalidStatusInstance).c.Writer.panicked = true ∧
      (ServeHTTP [] "/" invalidStatusInstance).c.Writer.body = "") := by
  decide

/-- C4 (TTL bypass). For a configuration with TTL equal to 0 and any request, the only call
recorded while the request is served is one entry into the downstream handler: `Get`, `Set` and
the key function are not called. The writer of the context is not replaced, the store and the
state of the adapter are unchanged, and, unless a write of the handler panics on an invalid
status code, the sink receives the bytes the handler writes. -/
theorem ttl_zero_bypass (ops : List Op) (req : String) (s : State σ)
    (hTTL : s.options.TTL = 0) :
    (ServeHTTP ops req s).calls = s.calls ++ [Call.Handler] ∧
    (ServeHTTP ops req s).c.capture = none ∧
    (ServeHTTP ops req s).store = s.store ∧
    (ServeHTTP ops req s).ext = s.ext ∧
    ((ServeHTTP ops req s).c.Writer.panicked = false →
      (ServeHTTP ops req s).c.Writer.body = written ops) := by
  rw [serve_bypass ops req s hTTL]
  have hc : ({ (bump ({ s with c := keyFuncContext req } : State σ)) with
      calls := s.calls ++ [Call.Handler] } : State σ).c.capture = none := rfl
  obtain ⟨h1, h2, h3, _, h5⟩ := runOps_nocapture ops _ hc
  have ha := after_fields (nextDown ops ({ s with c := keyFuncContext req } : State σ))
  have hb := after_fields (downstream ops id (bump ({ s with c := keyFuncContext req } : State σ)))
  obtain ⟨a1, a2, a3, _, _, _, a7, a8, _, _⟩ := ha
  obtain ⟨b1, b2, b3, _, _, _, b7, b8, _, _⟩ := hb
  refine ⟨?_, ?_, ?_, ?_, ?_⟩
  · rw [a1, nextDown, b1]; exact h1
  · rw [a8, nextDown, b8]; exact h5
  · rw [a2, nextDown, b2]; exact h2
  · rw [a3, nextDown, b3]; exact h3
  · rw [a7, nextDown, b7]
    intro hp
    have hb := runOps_body ops _ hp
    rw [downstream, hb]
    exact String.empty_append _

/-- C4, at an instance with TTL 0 and a handler that writes two chunks. -/
theorem ttl_zero_bypass_witness :
    ttlZeroInstance.options.TTL = 0 ∧
    (ServeHTTP [Op.Write "a", Op.Write "b"] "/" ttlZeroInstance).calls = [Call.Handler] ∧
    (ServeHTTP [Op.Write "a", Op.Write "b"] "/" ttlZeroInstance).c.capture = none :=
  ⟨rfl, (ttl_zero_bypass [Op.Write "a", Op.Write "b"] "/" ttlZeroInstance rfl).1,
    (ttl_zero_bypass [Op.Write "a", Op.Write "b"] "/" ttlZeroInstance rfl).2.1⟩

/-- C6 (key derivation failure). For a configuration with TTL different from 0 whose key
function returns a non-nil error for the request, the only call recorded is the call of the key
function: `Get` and `Set` are not called and the downstream handler is not entered. The request
ends aborted and the sink is as gin reset it: no status, header or body byte is written. -/
theorem keyfunc_error_aborts (ops : List Op) (req k : String) (e : Error) (s : State σ)
    (hTTL : s.options.TTL ≠ 0) (hk : resolveKey s req = (k, some e)) :
    (ServeHTTP ops req s).calls = s.calls ++ [Call.KeyFunc] ∧
    (ServeHTTP ops req s).c.IsAborted = true ∧
    (ServeHTTP ops req s).c.Writer = (Context.reset req).Writer ∧
    (ServeHTTP ops req s).c.capture = none ∧
    (ServeHTTP ops req s).store = s.store ∧
    (ServeHTTP ops req s).ext = s.ext := by
  rw [serve_keyerr ops req k e s hTTL hk]
  refine ⟨rfl, ?_, rfl, rfl, rfl, rfl⟩
  simp [Context.IsAborted, bump, Context.Abort, abortIndex]

/-- C6, at an instance whose key function fails. -/
theorem keyfunc_error_aborts_witness :
    (keyErrorInstance.options.TTL ≠ 0 ∧
      resolveKey keyErrorInstance "/" = ("", some "TestError")) ∧
    (ServeHTTP [Op.Write "live"] "/" keyErrorInstance).calls = [Call.KeyFunc] ∧
    (ServeHTTP [Op.Write "live"] "/" keyErrorInstance).c.Writer.body = "" := by
  have h := keyfunc_error_aborts [Op.Write "live"] "/" "" "TestError" keyErrorInstance
    (by decide) rfl
  exact ⟨⟨by decide, rfl⟩, h.1, by rw [h.2.2.1]; rfl⟩

theorem persist_calls (w : bodyWriter) (s : State σ) :
    (bodyWriter.persist w s).calls = s.calls ++ [Call.Set w.CacheKey w.body s.options.TTL] := by
  obtain ⟨st, ex, ks, es, ct, h, _⟩ := persist_shape w s
  rw [h]

theorem notAborted_iff (c : Context) : c.IsAborted = false ↔ c.index < abortIndex := by
  simp only [Context.IsAborted, decide_eq_false_iff_not, not_le]

theorem Write_calls (w : bodyWriter) (b : String) (s : State σ) :
    (bodyWriter.Write w b s).2.calls = s.calls ++
      (if s.c.Writer.status < 400 ∧ s.options.DisableSet = false ∧ s.c.IsAborted = false
        then [Call.Set w.CacheKey (w.body ++ b) s.options.TTL] else []) := by
  simp only [notAborted_iff]
  by_cases h : (!isErrorResponse s && !s.options.DisableSet && !s.c.IsAborted) = true
  · rw [Write_eligible w b s h, if_pos ((eligible_iff s).mp h)]
    simp only [realWrite, persist_calls]
  · rw [Write_ineligible w b s h, if_neg (fun h2 => h ((eligible_iff s).mpr h2))]
    simp only [realWrite, List.append_nil]

theorem run_calls_ineligible (op : Op) (s : State σ)
    (h : ¬ (s.c.Writer.status < 400 ∧ s.options.DisableSet = false ∧ s.c.IsAborted = false)) :
    (Op.run op s).calls = s.calls := by
  unfold Op.run
  split
  · rfl
  · cases op with
    | Write b =>
      rcases hc : s.c.capture with _ | w
      · simp [Op.exec, writerWrite, hc, realWrite]
      · simp only [Op.exec, writerWrite, hc, Write_calls, if_neg h, List.append_nil]
    | _ => simp [Op.exec]

theorem runOps_calls_aborted (ops : List Op) (s : State σ) (h : s.c.index = abortIndex) :
    (runOps ops s).calls = s.calls := by
  induction ops generalizing s with
  | nil => rfl
  | cons op ops ih =>
    have hi : (Op.run op s).c.index = abortIndex := by
      rcases run_index op s with h2 | h2
      · exact h2.trans h
      · exact h2
    rw [runOps_cons, ih _ hi]
    refine run_calls_ineligible op s (fun h2 => ?_)
    have h3 := (notAborted_iff s.c).mp h2.2.2
    omega

theorem runOps_calls_error (ops : List Op) (s : State σ) (h : 400 ≤ s.c.Writer.status)
    (hops : ∀ op ∈ ops, op.isStatus = false) :
    (runOps ops s).calls = s.calls := by
  induction ops generalizing s with
  | nil => rfl
  | cons op ops ih =>
    have hs : (Op.run op s).c.Writer.status = s.c.Writer.status :=
      run_status op s (hops op (List.mem_cons_self _ _))
    rw [runOps_cons, ih _ (by rw [hs]; exact h) (fun o ho => hops o (List.mem_cons_of_mem _ ho))]
    exact run_calls_ineligible op s (fun h2 => by have := h2.1; omega)

theorem missEntry_fields (s : State σ) (req k : String) (pre : List Op) :
    (∃ buf, (runOps pre (missEntry s req k)).c.capture = some { body := buf, CacheKey := k }) ∧
    ((runOps pre (missEntry s req k)).c.index = 1 ∨
      (runOps pre (missEntry s req k)).c.index = abortIndex) ∧
    (runOps pre (missEntry s req k)).options.TTL = s.options.TTL ∧
    (runOps pre (missEntry s req k)).options.DisableSet = s.options.DisableSet ∧
    (runOps pre (missEntry s req k)).options.Adapter = s.options.Adapter ∧
    ((runOps pre (missEntry s req k)).c.Writer.panicked = false →
      (runOps pre (missEntry s req k)).c.capture =
        some { body := written pre, CacheKey := k }) := by
  have hf := runOps_frame pre (missEntry s req k)
  have hk := runOps_capture_key pre (missEntry s req k)
  refine ⟨?_, runOps_index pre _, frame_TTL hf, frame_DisableSet hf, frame_Adapter hf, ?_⟩
  · rcases hc : (runOps pre (missEntry s req k)).c.capture with _ | w
    · rw [hc] at hk; simp [missEntry] at hk
    · rw [hc] at hk
      simp only [missEntry, Option.map_some', Option.some.injEq] at hk
      exact ⟨w.body, by rw [← hk]⟩
  · intro hp
    rw [runOps_capture pre _ hp]
    simp [missEntry]

theorem serve_miss_fields (pre : List Op) (req k : String) (s : State σ)
    (h : s.options.TTL ≠ 0) (hk : resolveKey s req = (k, none))
    (hget : ((adapterGet k s).1.1 && (adapterGet k s).1.2.2.isNone) = false) :
    (ServeHTTP pre req s).calls = (runOps pre (missEntry s req k)).calls ∧
    (ServeHTTP pre req s).store = (runOps pre (missEntry s req k)).store ∧
    (ServeHTTP pre req s).now = (runOps pre (missEntry s req k)).now ∧
    (ServeHTTP pre req s).c.Writer = (runOps pre (missEntry s req k)).c.Writer ∧
    (ServeHTTP pre req s).c.capture = (runOps pre (missEntry s req k)).c.capture ∧
    ((runOps pre (missEntry s req k)).c.Writer.panicked = false →
      (ServeHTTP pre req s).c.IsAborted = (runOps pre (missEntry s req k)).c.IsAborted) := by
  rw [serve_miss pre req k s h hk hget]
  obtain ⟨a1, a2, _, _, _, a6, a7, a8, _, _⟩ := after_fields (after (runOps pre (missEntry s req k)))
  obtain ⟨b1, b2, _, _, _, b6, b7, b8, _, _⟩ := after_fields (runOps pre (missEntry s req k))
  refine ⟨a1.trans b1, a2.trans b2, a6.trans b6, a7.trans b7, a8.trans b8, fun hp => ?_⟩
  have i1 := after_index _ hp
  have hp2 : (after (runOps pre (missEntry s req k))).c.Writer.panicked = false := by
    rw [after_panicked]; exact hp
  have i2 := after_index _ hp2
  simp only [Context.IsAborted, i2, i1, abortIndex]
  rcases runOps_index pre (missEntry s req k) with hi | hi
  · rw [hi]; simp [missEntry]
  · rw [hi]; simp [abortIndex]

/-- C3 (persistence eligibility). Every write of `b` through the capture writer records one
call `Set(CacheKey, buffer ++ b, TTL)` exactly when, at that moment, the status code is below
400, `DisableSet` is false and the context is not aborted, and records no call otherwise. On the
miss path of a request with resolved key `k`, when the downstream handler performs the actions
`pre` and then writes `b`, the calls recorded are those recorded for `pre`, followed by
`Set(k, captured ++ b, TTL)` exactly when the state reached after `pre` has no panic, a status
below 400, `DisableSet` false and is not aborted; `captured`, the cumulative buffer, is what
`pre` wrote. In particular a handler that sets a status of 400 or more first and does not set
one again, and a handler that aborts first, cause no `Set`. -/
theorem set_iff_eligible (pre : List Op) (b req k : String) (s : State σ)
    (hTTL : s.options.TTL ≠ 0) (hk : resolveKey s req = (k, none))
    (hmiss : ((adapterGet k s).1.1 && (adapterGet k s).1.2.2.isNone) = false) :
    (∀ (w : bodyWriter) (t : State σ),
      (bodyWriter.Write w b t).2.calls = t.calls ++
        (if t.c.Writer.status < 400 ∧ t.options.DisableSet = false ∧ t.c.IsAborted = false
          then [Call.Set w.CacheKey (w.body ++ b) t.options.TTL] else [])) ∧
    (ServeHTTP (pre ++ [Op.Write b]) req s).calls =
      (ServeHTTP pre req s).calls ++
        (if (ServeHTTP pre req s).c.Writer.panicked = false ∧
            (ServeHTTP pre req s).c.Writer.status < 400 ∧ s.options.DisableSet = false ∧
            (ServeHTTP pre req s).c.IsAborted = false
          then [Call.Set k (captured (ServeHTTP pre req s) ++ b) s.options.TTL] else []) ∧
    ((ServeHTTP pre req s).c.Writer.panicked = false →
      captured (ServeHTTP pre req s) = written pre) ∧
    (∀ (code : Int) (ops : List Op), 400 ≤ code → (∀ op ∈ ops, op.isStatus = false) →
      (ServeHTTP (Op.Status code :: ops) req s).calls =
        s.calls ++ keyFuncCalls s ++ [Call.Get k, Call.Handler]) ∧
    (∀ ops : List Op, (ServeHTTP (Op.Abort :: ops) req s).calls =
        s.calls ++ keyFuncCalls s ++ [Call.Get k, Call.Handler]) := by
  refine ⟨fun w t => Write_calls w b t, ?_, ?_, ?_, ?_⟩
  · obtain ⟨f1, _, _, f4, f5, f6⟩ := serve_miss_fields pre req k s hTTL hk hmiss
    obtain ⟨g1, _, _, _, _, _⟩ := serve_miss_fields (pre ++ [Op.Write b]) req k s hTTL hk hmiss
    obtain ⟨⟨buf, m1⟩, _, m3, m4, _, _⟩ := missEntry_fields s req k pre
    rw [g1, f1, f4, runOps_append, runOps_cons, runOps_nil]
    unfold captured
    rw [f5, m1]
    by_cases hp : (runOps pre (missEntry s req k)).c.Writer.panicked = false
    · rw [f6 hp, run_live _ _ hp]
      simp only [Op.exec, writerWrite, m1, Write_calls, m3, m4, hp, true_and]
    · have hp2 : (runOps pre (missEntry s req k)).c.Writer.panicked = true := by simpa using hp
      rw [run_panicked _ _ hp2]
      simp [hp2]
  · obtain ⟨_, _, _, f4, f5, _⟩ := serve_miss_fields pre req k s hTTL hk hmiss
    obtain ⟨_, _, _, _, _, m6⟩ := missEntry_fields s req k pre
    intro hp
    rw [f4] at hp
    unfold captured
    rw [f5, m6 hp]
  · intro code ops hcode hops
    obtain ⟨g1, _, _, _, _, _⟩ := serve_miss_fields (Op.Status code :: ops) req k s hTTL hk hmiss
    have hst : (Op.run (Op.Status code) (missEntry s req k)).c.Writer.status = code := by
      have hne : ¬ (200 : Int) = code := by omega
      have hpos : 0 < code := by omega
      simp [Op.run, Op.exec, missEntry, ResponseWriter.WriteHeader, ResponseWriter.Written,
        hne, hpos]
    rw [g1, runOps_cons, runOps_calls_error ops _ (by rw [hst]; exact hcode) hops]
    simp [Op.run, Op.exec, missEntry]
  · intro ops
    obtain ⟨g1, _, _, _, _, _⟩ := serve_miss_fields (Op.Abort :: ops) req k s hTTL hk hmiss
    rw [g1, runOps_cons,
      runOps_calls_aborted ops _ (by simp [Op.run, Op.exec, missEntry, Context.Abort])]
    simp [Op.run, Op.exec, missEntry]

/-- C3, at the memory instance on an empty store: a write after `c.Status(200)` calls `Set`,
a write after `c.Status(404)` and `c.Status(0)` does not, since gin ignores the code 0, and a
handler that starts with `c.Status(500)` or with `c.Abort()` causes no `Set`. -/
theorem set_iff_eligible_witness :
    (memoryInstance.options.TTL ≠ 0 ∧ resolveKey memoryInstance "/" = ("K", none) ∧
      ((adapterGet "K" memoryInstance).1.1 && (adapterGet "K" memoryInstance).1.2.2.isNone)
        = false) ∧
    (ServeHTTP ([Op.Status 200] ++ [Op.Write "a"]) "/" memoryInstance).calls =
      [Call.Get "K", Call.Handler, Call.Set "K" "a" 3600] ∧
    (ServeHTTP ([Op.Status 404, Op.Status 0] ++ [Op.Write "a"]) "/" memoryInstance).calls =
      [Call.Get "K", Call.Handler] ∧
    (ServeHTTP [Op.Status 500, Op.Write "a"] "/" memoryInstance).calls =
      [Call.Get "K", Call.Handler] ∧
    (ServeHTTP [Op.Abort, Op.Write "a"] "/" memoryInstance).calls =
      [Call.Get "K", Call.Handler] := by
  have h := set_iff_eligible [Op.Status 200] "a" "/" "K" memoryInstance (by decide) rfl rfl
  have h2 := set_iff_eligible [Op.Status 404, Op.Status 0] "a" "/" "K" memoryInstance
    (by decide) rfl rfl
  refine ⟨⟨by decide, rfl, rfl⟩, ?_, ?_, ?_, ?_⟩
  · rw [h.2.1]; decide
  · rw [h2.2.1]; decide
  · exact h.2.2.2.1 500 [Op.Write "a"] (by decide) (by decide)
  · exact h.2.2.2.2 [Op.Write "a"]

theorem persist_Writer (w : bodyWriter) (s : State σ) :
    (bodyWriter.persist w s).c.Writer = s.c.Writer := by
  obtain ⟨st, ex, ks, es, ct, h, _⟩ := persist_shape w s
  rw [h]

/-- C8 (capture is transparent, `Set` failures are not fatal). For every write of `b` through the
capture writer, `Write` returns what the real sink returns for `b`, and the real sink afterwards
is the real sink after its own `Write` of `b`, whether or not the write was eligible and whatever
`Set` returned. When the write is eligible and `Set` returns a non-nil error `e`, the context
holds `e` under the key `CacheSetError` and `e` is appended to its error list. On the miss path
of a whole request the sink ends with exactly the bytes the handler wrote, unless a write
panicked on an invalid status code. -/
theorem capture_transparent (w : bodyWriter) (b : String) (s : State σ) :
    (bodyWriter.Write w b s).1 = (ResponseWriter.Write b s.c.Writer).1 ∧
    (bodyWriter.Write w b s).2.c.Writer = (ResponseWriter.Write b s.c.Writer).2 ∧
    (∀ e : Error,
      (s.c.Writer.status < 400 ∧ s.options.DisableSet = false ∧ s.c.IsAborted = false) →
      (adapterSet w.CacheKey (w.body ++ b) s.options.TTL s).1 = some e →
        Context.Get "CacheSetError" (bodyWriter.Write w b s).2.c = some (KeyVal.CacheSetError e) ∧
        (bodyWriter.Write w b s).2.c.Errors = s.c.Errors ++ [e]) ∧
    (∀ (s0 : State σ) (ops : List Op) (req k : String),
      s0.options.TTL ≠ 0 → resolveKey s0 req = (k, none) →
      ((adapterGet k s0).1.1 && (adapterGet k s0).1.2.2.isNone) = false →
      (ServeHTTP ops req s0).c.Writer.panicked = false →
        (ServeHTTP ops req s0).c.Writer.body = written ops) := by
  refine ⟨?_, ?_, ?_, ?_⟩
  · by_cases h : (!isErrorResponse s && !s.options.DisableSet && !s.c.IsAborted) = true
    · rw [Write_eligible w b s h]
      simp only [realWrite, persist_Writer]
    · rw [Write_ineligible w b s h]
      simp only [realWrite]
  · by_cases h : (!isErrorResponse s && !s.options.DisableSet && !s.c.IsAborted) = true
    · rw [Write_eligible w b s h]
      simp only [realWrite, persist_Writer]
    · rw [Write_ineligible w b s h]
      simp only [realWrite]
  · intro e hel hset
    have h : (!isErrorResponse s && !s.options.DisableSet && !s.c.IsAborted) = true := by
      rw [eligible_iff]
      refine ⟨hel.1, hel.2.1, ?_⟩
      have h3 := hel.2.2
      simp only [Context.IsAborted, decide_eq_false_iff_not, not_le] at h3
      exact h3
    have hr := adapterSet_result w.CacheKey (w.body ++ b) s.options.TTL s
      ({ s with c := { s.c with capture := some { w with body := w.body ++ b } } } : State σ)
      rfl rfl rfl rfl
    have hp := persist_ctx { w with body := w.body ++ b }
      ({ s with c := { s.c with capture := some { w with body := w.body ++ b } } } : State σ)
    simp only at hp hr
    rw [hr, hset] at hp
    rw [Write_eligible w b s h]
    simp only [realWrite, hp, Context.Get, Context.Error, Context.Set, List.lookup, beq_self_eq_true,
      and_self]
  · intro s0 ops req k hTTL hk hmiss hp
    obtain ⟨_, _, _, f4, _, _⟩ := serve_miss_fields ops req k s0 hTTL hk hmiss
    rw [f4] at hp ⊢
    rw [runOps_body _ _ hp]
    exact String.empty_append _

/-- C8, at an instance whose mock adapter fails every `Set` with `TestError`. -/
theorem capture_transparent_witness :
    Context.Get "CacheSetError"
      (bodyWriter.Write { body := "", CacheKey := "K" } "OK"
        (missEntry mockSetErrorInstance "/" "K")).2.c = some (KeyVal.CacheSetError "TestError") ∧
    (bodyWriter.Write { body := "", CacheKey := "K" } "OK"
        (missEntry mockSetErrorInstance "/" "K")).2.c.Errors = ["TestError"] ∧
    (ServeHTTP [Op.Write "OK"] "/" mockSetErrorInstance).c.Writer.body = "OK" := by
  have h := capture_transparent { body := "", CacheKey := "K" } "OK"
    (missEntry mockSetErrorInstance "/" "K")
  exact ⟨(h.2.2.1 "TestError" ⟨by decide, rfl, rfl⟩ rfl).1,
    (h.2.2.1 "TestError" ⟨by decide, rfl, rfl⟩ rfl).2,
    h.2.2.2 mockSetErrorInstance [Op.Write "OK"] "/" "K" (by decide) rfl rfl (by decide)⟩


theorem adapterGet_memory (k : String) (s : State σ)
    (h : s.options.Adapter = some StorageAdapter.memory) :
    (adapterGet k s).1 = MemoryAdapter.Get k s.store s.now := by
  simp [adapterGet, h]

theorem run_nowrite_store (op : Op) (s : State σ) (h : op.isWrite = false) :
    (Op.run op s).store = s.store := by
  unfold Op.run
  split
  · rfl
  · cases op <;> simp [Op.exec, Op.isWrite] at h ⊢

theorem runOps_nowrite_store (ops : List Op) (s : State σ)
    (h : ∀ op ∈ ops, op.isWrite = false) : (runOps ops s).store = s.store := by
  induction ops generalizing s with
  | nil => rfl
  | cons op ops ih =>
    rw [runOps_cons, ih _ (fun o ho => h o (List.mem_cons_of_mem _ ho))]
    exact run_nowrite_store op s (h op (List.mem_cons_self _ _))

theorem written_nowrite (ops : List Op) (h : ∀ op ∈ ops, op.isWrite = false) :
    written ops = "" := by
  induction ops with
  | nil => rfl
  | cons op ops ih =>
    have h1 := h op (List.mem_cons_self _ _)
    have h2 := ih (fun o ho => h o (List.mem_cons_of_mem _ ho))
    cases op <;> simp [written, Op.isWrite, h2] at h1 ⊢

theorem writerWrite_store_memory (w : bodyWriter) (b : String) (s : State σ)
    (hc : s.c.capture = some w)
    (hel : s.c.Writer.status < 400 ∧ s.options.DisableSet = false ∧ s.c.index < abortIndex)
    (ha : s.options.Adapter = some StorageAdapter.memory) :
    (writerWrite b s).2.store =
      SyncMap.Store w.CacheKey ⟨w.body ++ b, s.now + ttlDuration s.options.TTL⟩ s.store := by
  simp only [writerWrite, hc]
  rw [Write_eligible w b s ((eligible_iff s).mpr hel)]
  simp only [realWrite]
  exact persist_store_memory _ _ ha

/-- C2 (write after miss), amended. With the memory adapter, `0 < TTL ≤ 9223372036` (so that
the TTL fits a `time.Duration`) and `DisableSet` false, for a request whose key `k` is not found,
let the downstream handler write at least once through `Write`, its last write being `b` after
the actions `pre`, made when nothing has panicked, the status is below 400 and the context is
not aborted. Then after the request a `Get k` at any instant before the expiry of the entry
(the instant of that write plus TTL seconds) returns `(true, s, nil)` where `s` is the
concatenation, in order, of all the bytes the handler wrote. -/
theorem write_after_miss (pre post : List Op) (b req k : String) (t : Int) (s : State σ)
    (hTTL : 0 < s.options.TTL) (hbound : s.options.TTL ≤ 9223372036)
    (hdis : s.options.DisableSet = false)
    (hmem : s.options.Adapter = some StorageAdapter.memory)
    (hk : resolveKey s req = (k, none))
    (hmiss : (MemoryAdapter.Get k s.store s.now).1 = false)
    (hpanic : (ServeHTTP pre req s).c.Writer.panicked = false)
    (hstatus : (ServeHTTP pre req s).c.Writer.status < 400)
    (habort : (ServeHTTP pre req s).c.IsAborted = false)
    (hpost : ∀ op ∈ post, op.isWrite = false)
    (ht : t < (ServeHTTP pre req s).now + s.options.TTL * Second) :
    MemoryAdapter.Get k (ServeHTTP (pre ++ Op.Write b :: post) req s).store t =
      (true, written (pre ++ Op.Write b :: post), none) := by
  have hne : s.options.TTL ≠ 0 := by omega
  have hm : ((adapterGet k s).1.1 && (adapterGet k s).1.2.2.isNone) = false := by
    rw [adapterGet_memory k s hmem, hmiss]; rfl
  obtain ⟨_, _, f3, f4, _, f6⟩ := serve_miss_fields pre req k s hne hk hm
  obtain ⟨_, g2, _, _, _, _⟩ :=
    serve_miss_fields (pre ++ Op.Write b :: post) req k s hne hk hm
  obtain ⟨_, _, m3, m4, m5, m6⟩ := missEntry_fields s req k pre
  rw [f4] at hpanic hstatus
  rw [f6 hpanic] at habort
  rw [f3] at ht
  have hst : (ServeHTTP (pre ++ Op.Write b :: post) req s).store =
      SyncMap.Store k ⟨written pre ++ b,
          (runOps pre (missEntry s req k)).now + Second * s.options.TTL⟩
        (runOps pre (missEntry s req k)).store := by
    rw [g2, runOps_append, runOps_cons, runOps_nowrite_store post _ hpost, run_live _ _ hpanic]
    change (writerWrite b _).2.store = _
    rw [writerWrite_store_memory _ b _ (m6 hpanic)
      ⟨hstatus, by rw [m4]; exact hdis, (notAborted_iff _).mp habort⟩ (m5.trans hmem), m3,
      ttlDuration_eq _ (by omega) hbound]
  rw [hst, Get_of_Load k _ _ t (Load_Store_same k _ _)]
  have ht2 : t < (runOps pre (missEntry s req k)).now + Second * s.options.TTL := by
    rw [mul_comm]; exact ht
  simp only [ht2, if_true]
  rw [written_append, written_cons, written_nowrite post hpost]
  simp [written]

/-- C2, at the memory instance: the handler does `c.Status(200)`, writes `ab` and `cd`, then
lets one second pass; a `Get` half an hour later finds `abcd`. -/
theorem write_after_miss_witness :
    (0 < memoryInstance.options.TTL ∧ memoryInstance.options.DisableSet = false ∧
      resolveKey memoryInstance "/" = ("K", none) ∧
      (MemoryAdapter.Get "K" memoryInstance.store memoryInstance.now).1 = false) ∧
    MemoryAdapter.Get "K"
      (ServeHTTP ([Op.Status 200, Op.Write "ab"] ++ Op.Write "cd" :: [Op.Sleep 1000000000]) "/"
        memoryInstance).store 1800000000000 = (true, "abcd", none) := by
  have h := write_after_miss [Op.Status 200, Op.Write "ab"] [Op.Sleep 1000000000] "cd" "/" "K"
    1800000000000 memoryInstance (by decide) (by decide) rfl rfl rfl rfl (by decide) (by decide)
    (by decide) (by decide) (by decide)
  exact ⟨⟨by decide, rfl, rfl, rfl⟩, h⟩

/-- C2 fails as stated: a handler that finishes with status 200 without writing leaves no entry,
so a `Get` right after the request reports not found, not `(true, "", nil)`. -/
theorem write_after_miss_counterexample :
    (0 < memoryInstance.options.TTL ∧ memoryInstance.options.DisableSet = false ∧
      (MemoryAdapter.Get "K" memoryInstance.store memoryInstance.now).1 = false ∧
      (ServeHTTP [] "/" memoryInstance).c.Writer.status < 400) ∧
    MemoryAdapter.Get "K" (ServeHTTP [] "/" memoryInstance).store
      (ServeHTTP [] "/" memoryInstance).now = (false, "", none) ∧
    MemoryAdapter.Get "K" (ServeHTTP [] "/" memoryInstance).store
      (ServeHTTP [] "/" memoryInstance).now ≠ (true, written [], none) := by
  decide

theorem Values_append (k : String) (a b : Header) :
    Header.Values k (a ++ b) = Header.Values k a ++ Header.Values k b := by
  simp [Header.Values, List.filter_append]

theorem Values_mem (k v : String) (h : Header) (hm : (CanonicalMIMEHeaderKey k, v) ∈ h) :
    v ∈ Header.Values k h := by
  simp only [Header.Values, List.mem_map, List.mem_filter]
  exact ⟨(CanonicalMIMEHeaderKey k, v), ⟨hm, by simp⟩, rfl⟩

theorem hit_header (key result : String) (s : State σ) :
    (NewMiddleware.hit key result s).c.Writer.header =
      s.c.Writer.header ++ hitHeaders s.options key := by
  have e : (writerWrite result (NewMiddleware.hitHeader key s)).2.c.Writer.header =
      s.c.Writer.header ++ hitHeaders s.options key := by
    obtain ⟨st, ex, ks, es, ct, cs, h, _⟩ := writerWrite_shape result (NewMiddleware.hitHeader key s)
    rw [h, hitHeader_eq]
    simp only [Write_header]
    unfold hitSink
    rw [(WriteHeader_fields _ _).1]
  unfold NewMiddleware.hit
  simp only
  split
  · exact e
  · exact e

/-- C9 (hit headers), amended. On a cache hit with resolved key `k` the response headers are the
configured extra headers, then `ETag: k` when `KeyAsETag` is true, then the content type, each
under the canonical form of its name. So each configured extra header `(name, v)` has `v`
among the values of `name`; when `KeyAsETag` is true `k` is among the values of `ETag`; when
`KeyAsETag` is false the values of `ETag` are exactly those of the configured extra headers
whose name has the canonical form of `ETag`, none when no extra header has such a name.
Headers already in the sink keep their values: the hit only appends. -/
theorem hit_headers (ops : List Op) (req k payload : String) (s : State σ)
    (hTTL : s.options.TTL ≠ 0) (hk : resolveKey s req = (k, none))
    (hget : (adapterGet k s).1 = (true, payload, none)) :
    (ServeHTTP ops req s).c.Writer.header =
      canonicalHeaders s.options.Headers ++
        (if s.options.KeyAsETag = true then [(CanonicalMIMEHeaderKey "ETag", k)] else []) ++
        [("Content-Type", if s.options.ResponseContentType = "" then "application/json"
                          else s.options.ResponseContentType)] ∧
    (∀ kv ∈ s.options.Headers, kv.2 ∈ Header.Values kv.1 (ServeHTTP ops req s).c.Writer.header) ∧
    (s.options.KeyAsETag = true →
      k ∈ Header.Values "ETag" (ServeHTTP ops req s).c.Writer.header) ∧
    (s.options.KeyAsETag = false →
      Header.Values "ETag" (ServeHTTP ops req s).c.Writer.header =
        Header.Values "ETag" (canonicalHeaders s.options.Headers)) ∧
    (s.options.KeyAsETag = false →
      (∀ kv ∈ s.options.Headers,
        CanonicalMIMEHeaderKey kv.1 ≠ CanonicalMIMEHeaderKey "ETag") →
      Header.Values "ETag" (ServeHTTP ops req s).c.Writer.header = []) ∧
    (∀ (t : State σ) (name : String),
      ∃ added, Header.Values name (NewMiddleware.hit k payload t).c.Writer.header =
        Header.Values name t.c.Writer.header ++ added) := by
  obtain ⟨_, _, _, _, _, _, h7, _, _⟩ := serve_hit ops req k payload s hTTL hk hget
  rw [h7]
  unfold hitHeaders
  rw [canon_ETag]
  refine ⟨rfl, ?_, ?_, ?_, ?_, ?_⟩
  · intro kv hkv
    apply Values_mem
    simp only [List.mem_append, canonicalHeaders, List.mem_map]
    exact Or.inl (Or.inl ⟨kv, hkv, rfl⟩)
  · intro he
    apply Values_mem
    simp [he, canon_ETag]
  · intro he
    simp only [he, Bool.false_eq_true, if_false, List.append_nil, Values_append]
    simp [Header.Values, canon_ETag]
  · intro he hno
    simp only [he, Bool.false_eq_true, if_false, List.append_nil, Values_append]
    have h0 : Header.Values "ETag" (canonicalHeaders s.options.Headers) = [] := by
      simp only [Header.Values, List.map_eq_nil_iff, List.filter_eq_nil_iff, canonicalHeaders,
        List.mem_map]
      rintro p ⟨kv, hkv, rfl⟩
      simpa [canon_ETag] using hno kv hkv
    rw [h0]
    simp [Header.Values, canon_ETag]
  · intro t name
    rw [hit_header k payload t]
    simp only [Values_append]
    exact ⟨_, rfl⟩

/-- C9, at an instance with two extra headers and `KeyAsETag` true, as in the tests. -/
theorem hit_headers_witness :
    (etagKeyInstance.options.TTL ≠ 0 ∧ resolveKey etagKeyInstance "/" = ("K", none) ∧
      (adapterGet "K" etagKeyInstance).1 = (true, "cached", none)) ∧
    (ServeHTTP [] "/" etagKeyInstance).c.Writer.header =
      [("Test", "test"), ("Test2", "test2"), ("Etag", "K"), ("Content-Type", "application/json")] ∧
    "K" ∈ Header.Values "ETag" (ServeHTTP [] "/" etagKeyInstance).c.Writer.header ∧
    Header.Values "test" (ServeHTTP [] "/" etagKeyInstance).c.Writer.header = ["test"] := by
  have h := hit_headers [] "/" "K" "cached" etagKeyInstance (by decide) rfl rfl
  refine ⟨⟨by decide, rfl, rfl⟩, ?_, h.2.2.1 rfl, ?_⟩
  · rw [h.1]; decide
  · rw [h.1]; decide

/-- C9 fails as stated: with `KeyAsETag` false and a configured extra header named `ETag`, the
hit response carries an `ETag` header added by the middleware. -/
theorem hit_headers_counterexample :
    etagHeaderInstance.options.KeyAsETag = false ∧
    (adapterGet "K" etagHeaderInstance).1 = (true, "cached", none) ∧
    Header.Values "ETag" (ServeHTTP [] "/" etagHeaderInstance).c.Writer.header = ["v1"] ∧
    Header.Values "ETag" (ServeHTTP [] "/" etagHeaderInstance).c.Writer.header ≠ [] := by
  decide

theorem get_options (s : State σ) : (NewMiddleware.get s).2.options = s.options := by
  obtain ⟨ex, hx⟩ := get_shape s
  rw [hx]

theorem writerWrite_frame (b : String) (s : State σ) :
    Options.frame s.options (writerWrite b s).2.options := by
  obtain ⟨st, ex, ks, es, ct, cs, h, h2⟩ := writerWrite_shape b s
  rw [h]
  exact ⟨ct, rfl, h2⟩

theorem hit_frame (key result : String) (s : State σ) :
    Options.frame s.options (NewMiddleware.hit key result s).options := by
  have e : Options.frame s.options
      (writerWrite result (NewMiddleware.hitHeader key s)).2.options := by
    have h := writerWrite_frame result (NewMiddleware.hitHeader key s)
    rw [hitHeader_eq] at h ⊢
    exact h
  unfold NewMiddleware.hit
  simp only
  split
  · exact e
  · exact e

theorem lookup_id_frame (s : State σ) :
    Options.frame s.options (NewMiddleware.lookup id s).options := by
  unfold NewMiddleware.lookup
  simp only
  split
  · have h := hit_frame s.key (NewMiddleware.get s).1.2.1 (NewMiddleware.get s).2
    rw [get_options] at h
    exact h
  · simp only [NewMiddleware.miss, id, get_options]
    exact frame_refl _

theorem resolve_id_frame (s : State σ) :
    Options.frame s.options (NewMiddleware.resolve id s).options := by
  unfold NewMiddleware.resolve
  split
  · split
    · exact frame_refl _
    · exact lookup_id_frame _
  · exact lookup_id_frame _

theorem handler_id_frame (s : State σ) :
    Options.frame s.options (NewMiddleware.handler id s).options := by
  unfold NewMiddleware.handler
  split
  · exact frame_refl _
  · exact resolve_id_frame _

theorem nextDown_frame (ops : List Op) (s : State σ) :
    Options.frame s.options (nextDown ops s).options := by
  rw [nextDown, (after_fields _).2.2.2.1]
  exact runOps_frame ops _

theorem serve_frame (ops : List Op) (req : String) (s : State σ) :
    Options.frame s.options (ServeHTTP ops req s).options := by
  rw [serve_eq, (after_fields _).2.2.2.1]
  have h1 := handler_id_frame (bump ({ s with c := Context.reset req } : State σ))
  rcases handler_cases (bump ({ s with c := Context.reset req } : State σ)) with ⟨_, h2⟩ | ⟨_, h2⟩
  · rw [h2]
    exact frame_trans h1 (nextDown_frame ops _)
  · rw [h2]
    exact h1

theorem serveAll_frame (reqs : List (String × List Op)) (s : State σ) :
    Options.frame s.options (serveAll reqs s).options := by
  induction reqs generalizing s with
  | nil => exact frame_refl _
  | cons r reqs ih =>
    have e : serveAll (r :: reqs) s = serveAll reqs (ServeHTTP r.2 r.1 s) := rfl
    rw [e]
    exact frame_trans (serve_frame r.2 r.1 s) (ih _)

theorem persist_ContentType (w : bodyWriter) (s : State σ) :
    (bodyWriter.persist w s).options.ResponseContentType =
      (if s.options.ResponseContentType = "" then Header.Get "Content-Type" s.c.Writer.header
        else s.options.ResponseContentType) := by
  obtain ⟨st, ex, ks, es, h⟩ := save_shape w (bodyWriter.learnContentType s)
  unfold bodyWriter.persist
  rw [h]
  unfold bodyWriter.learnContentType
  split <;> rfl

/-- C10 (hit content type), amended. A cache hit is given the content type that the options of
the instance hold when the request arrives, or `application/json` when they hold none; it is
added after the configured extra headers and the `ETag`, each under the canonical form of its
name. Serving
requests never changes the other fields of the options, and never changes a
`ResponseContentType` that is not empty, so an instance constructed with a non-empty content
type gives it to every hit. When the field is empty, an eligible write through the capture
writer replaces it by the `Content-Type` header of the response being captured; no other write
changes it. -/
theorem hit_content_type (reqs : List (String × List Op)) (ops : List Op)
    (req k payload : String) (s : State σ)
    (hTTL : s.options.TTL ≠ 0) (hk : resolveKey (serveAll reqs s) req = (k, none))
    (hget : (adapterGet k (serveAll reqs s)).1 = (true, payload, none)) :
    (ServeHTTP ops req (serveAll reqs s)).c.Writer.header =
      canonicalHeaders s.options.Headers ++
        (if s.options.KeyAsETag = true then [(CanonicalMIMEHeaderKey "ETag", k)] else []) ++
        [("Content-Type",
          if (serveAll reqs s).options.ResponseContentType = "" then "application/json"
          else (serveAll reqs s).options.ResponseContentType)] ∧
    (s.options.ResponseContentType ≠ "" →
      (serveAll reqs s).options.ResponseContentType = s.options.ResponseContentType) ∧
    Options.frame s.options (serveAll reqs s).options ∧
    (ServeHTTP ops req (serveAll reqs s)).options = (serveAll reqs s).options ∧
    (∀ (w : bodyWriter) (b : String) (t : State σ),
      (bodyWriter.Write w b t).2.options.ResponseContentType =
        (if (t.c.Writer.status < 400 ∧ t.options.DisableSet = false ∧ t.c.IsAborted = false) ∧
            t.options.ResponseContentType = ""
          then Header.Get "Content-Type" t.c.Writer.header
          else t.options.ResponseContentType)) := by
  have hf := serveAll_frame reqs s
  have hT : (serveAll reqs s).options.TTL ≠ 0 := by rw [frame_TTL hf]; exact hTTL
  obtain ⟨_, x2, _, _, _, _, x7, _, _⟩ := serve_hit ops req k payload (serveAll reqs s) hT hk hget
  refine ⟨?_, fun hne => frame_ContentType hf hne, hf, x2, ?_⟩
  · rw [x7]
    unfold hitHeaders
    rw [canon_ETag]
    obtain ⟨ct, e, _⟩ := hf
    simp only [e]
  · intro w b t
    by_cases h : (!isErrorResponse t && !t.options.DisableSet && !t.c.IsAborted) = true
    · have h2 := (eligible_iff t).mp h
      have h3 : t.c.IsAborted = false := by
        simp only [Context.IsAborted, decide_eq_false_iff_not, not_le]; exact h2.2.2
      rw [Write_eligible w b t h]
      simp only [realWrite, persist_ContentType]
      by_cases h4 : t.options.ResponseContentType = ""
      · simp [h4, h2.1, h2.2.1, h3]
      · simp [h4]
    · rw [Write_ineligible w b t h]
      have h5 : ¬ (t.c.Writer.status < 400 ∧ t.options.DisableSet = false ∧
          t.c.IsAborted = false) := by
        intro h6
        apply h
        rw [eligible_iff]
        refine ⟨h6.1, h6.2.1, ?_⟩
        have h7 := h6.2.2
        simp only [Context.IsAborted, decide_eq_false_iff_not, not_le] at h7
        exact h7
      simp [realWrite, h5]

/-- C10, at an instance constructed with the content type `text/html`: a miss whose handler
answers in plain text is followed by a hit, and the hit is given `text/html`. -/
theorem hit_content_type_witness :
    (htmlInstance.options.TTL ≠ 0 ∧
      resolveKey (serveAll [("/", plainTextHandler)] htmlInstance) "/" = ("K", none) ∧
      (adapterGet "K" (serveAll [("/", plainTextHandler)] htmlInstance)).1 = (true, "hi", none)) ∧
    (ServeHTTP [] "/" (serveAll [("/", plainTextHandler)] htmlInstance)).c.Writer.header =
      [("Content-Type", "text/html")] := by
  have h := hit_content_type [("/", plainTextHandler)] [] "/" "K" "hi" htmlInstance
    (by decide) (by decide) (by decide)
  refine ⟨⟨by decide, by decide, by decide⟩, ?_⟩
  rw [h.1, h.2.1 (by decide)]
  decide

set_option maxRecDepth 10000 in
/-- C10 fails as stated: an instance constructed without a content type serves a miss whose
handler answers in plain text, and the capture write stores that content type in the options;
the hit that follows is given `text/plain; charset=utf-8` instead of `application/json`. -/
theorem hit_content_type_counterexample :
    memoryInstance.options.ResponseContentType = "" ∧
    (serveAll [("/", plainTextHandler), ("/", [])] memoryInstance).calls =
      [Call.Get "K", Call.Handler, Call.Set "K" "hi" 3600, Call.Get "K"] ∧
    (serveAll [("/", plainTextHandler), ("/", [])] memoryInstance).c.Writer.header =
      [("Content-Type", "text/plain; charset=utf-8")] ∧
    (serveAll [("/", plainTextHandler), ("/", [])] memoryInstance).c.Writer.body = "hi" ∧
    (serveAll [("/", plainTextHandler), ("/", [])] memoryInstance).options.ResponseContentType =
      "text/plain; charset=utf-8" := by
  decide

theorem writerWrite_key (b : String) (s : State σ) : (writerWrite b s).2.key = s.key := by
  obtain ⟨st, ex, ks, es, ct, cs, h, _⟩ := writerWrite_shape b s
  rw [h]

theorem hit_key (key result : String) (s : State σ) :
    (NewMiddleware.hit key result s).key = s.key := by
  have e : (writerWrite result (NewMiddleware.hitHeader key s)).2.key = s.key := by
    rw [writerWrite_key, hitHeader_eq]
  unfold NewMiddleware.hit
  simp only
  split
  · exact e
  · exact e

theorem lookup_id_key (s : State σ) : (NewMiddleware.lookup id s).key = s.key := by
  obtain ⟨ex, hx⟩ := get_shape s
  unfold NewMiddleware.lookup
  simp only
  split
  · rw [hit_key, hx]
  · simp only [NewMiddleware.miss, id, hx]

theorem handler_id_key (s : State σ) (h : s.options.KeyFunc = none) :
    (NewMiddleware.handler id s).key = s.key := by
  unfold NewMiddleware.handler
  split
  · rfl
  · unfold NewMiddleware.resolve
    simp only [h]
    exact lookup_id_key _

theorem serve_key (ops : List Op) (req : String) (s : State σ)
    (h : s.options.KeyFunc = none) : (ServeHTTP ops req s).key = s.key := by
  rw [serve_eq, (after_fields _).2.2.2.2.1]
  have h1 := handler_id_key (bump ({ s with c := Context.reset req } : State σ)) h
  rcases handler_cases (bump ({ s with c := Context.reset req } : State σ)) with ⟨_, h2⟩ | ⟨_, h2⟩
  · rw [h2, nextDown, (after_fields _).2.2.2.2.1]
    change (runOps ops _).key = _
    rw [runOps_key]
    exact h1
  · rw [h2]
    exact h1

/-- The static key: an instance constructed without a key function keeps the key of its options
as the resolved key of every request, whatever requests it has served. -/
theorem static_key (options : Options σ) (s0 : State σ) (reqs : List (String × List Op))
    (req : String) (h : options.KeyFunc = none) :
    resolveKey (serveAll reqs (NewMiddleware options s0)) req = (options.Key, none) := by
  have hk : ∀ (rs : List (String × List Op)) (s : State σ), s.options.KeyFunc = none →
      (serveAll rs s).key = s.key ∧ (serveAll rs s).options.KeyFunc = none := by
    intro rs
    induction rs with
    | nil => intro s hs; exact ⟨rfl, hs⟩
    | cons r rs ih =>
      intro s hs
      have e : serveAll (r :: rs) s = serveAll rs (ServeHTTP r.2 r.1 s) := rfl
      have hf : (ServeHTTP r.2 r.1 s).options.KeyFunc = none := by
        rw [frame_KeyFunc (serve_frame r.2 r.1 s)]; exact hs
      rw [e]
      exact ⟨(ih _ hf).1.trans (serve_key r.2 r.1 s hs), (ih _ hf).2⟩
  have h0 : (NewMiddleware options s0).options.KeyFunc = none ∧
      (NewMiddleware options s0).key = options.Key := by
    unfold NewMiddleware
    split <;> exact ⟨h, rfl⟩
  obtain ⟨h1, h2⟩ := hk reqs _ h0.1
  unfold resolveKey
  rw [h2, h1, h0.2]

/-- The adapter of an instance is never nil: `NewMiddleware` resolves it, with the memory
adapter as the default when the process has none. -/
theorem NewMiddleware_adapter (options : Options σ) (s0 : State σ) :
    (NewMiddleware options s0).options.Adapter ≠ none ∧
    (options.Adapter = none → s0.DefaultAdapter = none →
      (NewMiddleware options s0).options.Adapter = some StorageAdapter.memory) := by
  unfold NewMiddleware
  rcases ha : options.Adapter with _ | a
  · rcases hd : s0.DefaultAdapter with _ | b
    · simp
    · simp [hd]
  · simp [ha]

end

/-! ## Claims on the memory adapter -/

theorem Load_setAll (k : String) (later : List (String × String × Int × Int)) (m : SyncMap)
    (h : ∀ e ∈ later, e.1 ≠ k) : SyncMap.Load k (setAll later m) = SyncMap.Load k m := by
  induction later generalizing m with
  | nil => rfl
  | cons e later ih =>
    have h1 : SyncMap.Load k (setAll (e :: later) m) =
        SyncMap.Load k (setAll later (MemoryAdapter.Set e.1 e.2.1 e.2.2.1 m e.2.2.2).2) := rfl
    rw [h1, ih _ (fun x hx => h x (List.mem_cons_of_mem _ hx))]
    exact Load_Store_other k e.1 _ m (h e (List.mem_cons_self _ _))

/-- C5 (expiry), amended. With the memory adapter, for every key `k`, payload `p` and TTL `T`
whose value in nanoseconds fits a `time.Duration` (`|T| ≤ 9223372036`), `Set(k, p, T)` at instant
`t0` returns nil and, whatever later `Set` calls are made on other keys, `Get(k)` at instant `t`
returns `(true, p, nil)` when `t < t0 + T` seconds and `(false, "", nil)` when `t ≥ t0 + T`
seconds. -/
theorem memory_expiry (k p : String) (T t0 t : Int) (store : SyncMap)
    (later : List (String × String × Int × Int))
    (hT : -9223372036 ≤ T ∧ T ≤ 9223372036) (hl : ∀ e ∈ later, e.1 ≠ k) :
    (MemoryAdapter.Set k p T store t0).1 = none ∧
    MemoryAdapter.Get k (setAll later (MemoryAdapter.Set k p T store t0).2) t =
      (if t < t0 + T * Second then (true, p, none) else (false, "", none)) := by
  refine ⟨rfl, ?_⟩
  have h1 : SyncMap.Load k (setAll later (MemoryAdapter.Set k p T store t0).2) =
      some ⟨p, t0 + ttlDuration T⟩ := by
    rw [Load_setAll k later _ hl]
    exact Load_Store_same k _ _
  rw [Get_of_Load k _ _ t h1, ttlDuration_eq T hT.1 hT.2, mul_comm]

/-- C5, for an entry set for one hour at instant 5, with a later `Set` on another key: found one
nanosecond before the expiry, not found at the expiry; and an entry set with TTL 0 is not found
at the instant it is set. -/
theorem memory_expiry_witness :
    MemoryAdapter.Get "k" (setAll [("j", "q", 10, 7)] (MemoryAdapter.Set "k" "p" 3600 [] 5).2)
      3600000000004 = (true, "p", none) ∧
    MemoryAdapter.Get "k" (setAll [("j", "q", 10, 7)] (MemoryAdapter.Set "k" "p" 3600 [] 5).2)
      3600000000005 = (false, "", none) ∧
    MemoryAdapter.Get "k" (setAll [] (MemoryAdapter.Set "k" "p" 0 [] 5).2) 5 = (false, "", none) :=
  ⟨(memory_expiry "k" "p" 3600 5 3600000000004 [] [("j", "q", 10, 7)]
      ⟨by decide, by decide⟩ (by decide)).2,
    (memory_expiry "k" "p" 3600 5 3600000000005 [] [("j", "q", 10, 7)]
      ⟨by decide, by decide⟩ (by decide)).2,
    (memory_expiry "k" "p" 0 5 5 [] [] ⟨by decide, by decide⟩ (by decide)).2⟩

/-- C5 fails as stated for a TTL whose nanoseconds overflow int64: with `T = 9223372037` the
product `time.Second * time.Duration(T)` wraps to a negative duration, and the entry is not found
at the very instant it is set, although that instant is before `t0 + T` seconds. -/
theorem memory_expiry_counterexample :
    (0 : Int) < 0 + 9223372037 * Second ∧
    ttlDuration 9223372037 = -9223372036709551616 ∧
    MemoryAdapter.Get "k" (MemoryAdapter.Set "k" "p" 9223372037 [] 0).2 0 = (false, "", none) ∧
    MemoryAdapter.Get "k" (MemoryAdapter.Set "k" "p" 9223372037 [] 0).2 0 ≠ (true, "p", none) := by
  decide

/-- C7 (the code at the failing input). `MemoryAdapter.Clear` returns nil and leaves the store
as it is: after `Set("k", "p", 3600)` at instant 0 followed by `Clear("k")`, a `Get("k")` at
instant 0 still returns `(true, "p", nil)`. -/
theorem memory_clear_keeps_entry :
    (∀ (k : String) (m : SyncMap), MemoryAdapter.Clear k m = (none, m)) ∧
    (MemoryAdapter.Clear "k" (MemoryAdapter.Set "k" "p" 3600 [] 0).2).1 = none ∧
    MemoryAdapter.Get "k"
      (MemoryAdapter.Clear "k" (MemoryAdapter.Set "k" "p" 3600 [] 0).2).2 0 = (true, "p", none) :=
  ⟨fun _ _ => rfl, rfl, by decide⟩

end Gincache
